import Mathlib

/-!
# Creation orchestrator

A shallow embedding of `backend/controllers/creationController.js`, and of the
fetch function of `frontend/src/pages/Dashboard.jsx`.

The controller is glue code between four stores (Creation, Usage, Analytics,
Notification), a timer and a remote file store.  The embedding makes the
stores an explicit `World` that every handler threads through, and returns
the world as it is when the handler answers together with the answer itself.

* A handler wrapped in `catchAsync` that calls `next(new AppError(msg, code))`
  answers `Response.error code msg`; a collaborator that throws inside such a
  handler ends it with `Response.thrown`.
* A collaborator call that throws leaves the stores as they were.
* Reads (`findById`, `findCurrent`, `find`, `countDocuments`) are lookups in
  the world.  The outcome of a write or of an external call is an input of the
  handler wherever the source handles the failure itself (the two `try`
  blocks) and in `createCreation`.
* `Math.random()` and `Date.now()` are inputs (`Env`).
* The store keeps a log of the effects that took place, in order.
-/

set_option autoImplicit false

namespace Vision

/-! ## Data model -/

/-- Lifecycle status of a Creation: the four values the controller reads or writes. -/
inductive Status where
  | generating
  | completed
  | failed
  | deleted
  deriving DecidableEq

/-- The string a status is stored and queried as. -/
def Status.name : Status → String
  | .generating => "generating"
  | .completed => "completed"
  | .failed => "failed"
  | .deleted => "deleted"

/-- Resource kinds counted by a Usage record. -/
inductive UsageKind where
  | images
  | videos
  | posts
  deriving DecidableEq

/-- The key of a usage kind, as it appears in messages. -/
def UsageKind.name : UsageKind → String
  | .images => "images"
  | .videos => "videos"
  | .posts => "posts"

/-- A Creation document, with the fields the controller touches. -/
structure Creation where
  id : Nat
  userId : Nat
  type : String
  title : String
  description : String
  prompt : String
  style : String
  size : Option String
  duration : Option Nat
  quality : String
  status : Status
  fileUrl : Option String
  thumbnailUrl : Option String
  fileSize : Nat
  generationTime : Nat
  model : String
  isPublic : Bool
  tags : List String
  downloadCount : Nat
  metadataFormat : Option String
  deriving DecidableEq

/-- One used/limit pair of a Usage record. -/
structure Counter where
  used : Nat
  limit : Nat
  deriving DecidableEq

/-- The Usage record of a user for the current period. -/
structure Usage where
  userId : Nat
  images : Counter
  videos : Counter
  posts : Counter
  deriving DecidableEq

/-- The free-form metrics bag of an Analytics event: every key the controller writes. -/
structure Metrics where
  generationTime : Option Nat
  fileSize : Option Nat
  status : Option String
  model : Option String
  style : Option String
  quality : Option String
  action : Option String
  timestamp : Option Nat
  success : Option Bool
  deriving DecidableEq

/-- An Analytics event. -/
structure AnalyticsEvent where
  userId : Nat
  type : String
  entityId : Nat
  entityType : String
  metrics : Metrics
  deriving DecidableEq

/-- The data payload of the notifications the controller emits. -/
structure NotificationData where
  creationId : Nat
  type : String
  title : String
  deriving DecidableEq

/-- A Notification. -/
structure Notification where
  userId : Nat
  kind : String
  title : String
  body : String
  data : NotificationData
  priority : String
  deriving DecidableEq

/-- What the callback handed to `setTimeout` closes over. -/
structure Job where
  creationId : Nat
  userId : Nat
  type : String
  title : String
  size : Option String
  deriving DecidableEq

/-- A JSON value of a request body. -/
inductive Value where
  | str (s : String)
  | bool (b : Bool)
  | strs (xs : List String)
  | num (n : Int)
  | null
  deriving DecidableEq

/-- A JavaScript object: its own keys in insertion order, each with its value. -/
abbrev Obj := List (String × Value)

/-- An effect that took place on a store, the timer or the remote file store. -/
inductive Effect where
  | creationCreate (id : Nat)
  | incrementUsage (userId : Nat) (kind : UsageKind)
  | analyticsCreate (entityId : Nat)
  | setTimeout (creationId : Nat) (delayMs : Nat)
  | statusWrite (id : Nat) (status : Status)
  | creationUpdate (id : Nat) (patch : Obj)
  | analyticsPatch (entityId : Nat)
  | notificationCreate (kind : String) (creationId : Nat)
  | cloudinaryDelete (publicId : String) (ok : Bool)
  | incrementDownloadCount (id : Nat)
  deriving DecidableEq

/-- The stores, the pending timers and the effect log. -/
structure World where
  creations : List Creation
  usages : List Usage
  analytics : List AnalyticsEvent
  notifications : List Notification
  timers : List (Job × Nat)
  nextId : Nat
  log : List Effect
  deriving DecidableEq

/-- Pagination metadata of a list answer; `pages` is `none` when the quotient is not finite. -/
structure Pagination where
  page : Nat
  limit : Nat
  total : Nat
  pages : Option Nat
  deriving DecidableEq

/-- What a handler answers. -/
inductive Response where
  | creation (code : Nat) (c : Option Creation)
  | list (code : Nat) (items : List Creation) (pagination : Pagination)
  | message (code : Nat) (text : String)
  | download (code : Nat) (downloadUrl : Option String) (filename : String)
  | error (code : Nat) (text : String)
  | thrown
  deriving DecidableEq

/-- The request body of `createCreation`. -/
structure CreateRequest where
  type : String
  title : String
  description : String
  prompt : String
  style : String
  size : Option String
  duration : Option Nat
  quality : String
  deriving DecidableEq

/-- Which of the three writes of `createCreation` throws. -/
structure CreateFaults where
  createThrows : Bool
  incrementThrows : Bool
  analyticsThrows : Bool
  deriving DecidableEq

/-! ## Store operations -/

/-- Append an effect to the log. -/
def World.emit (w : World) (e : Effect) : World :=
  { w with log := w.log ++ [e] }

/-- Replace the first element satisfying `p` by its image under `f`. -/
def updateFirst {α : Type} (p : α → Bool) (f : α → α) : List α → List α
  | [] => []
  | x :: xs => if p x then f x :: xs else x :: updateFirst p f xs

/-- The counter of one kind. -/
def Usage.counter (u : Usage) : UsageKind → Counter
  | .images => u.images
  | .videos => u.videos
  | .posts => u.posts

/-- Modelled from the spec: `Usage.findCurrent` of the absent Usage model, the
record of the user for the current period (the world holds the current period's
records), or nothing. -/
def Usage.findCurrent (w : World) (userId : Nat) : Option Usage :=
  w.usages.find? (fun u => u.userId == userId)

/-- Modelled from the spec: `isLimitExceeded` of the absent Usage model, true when
the counter of the kind is at or over its limit. -/
def Usage.isLimitExceeded (u : Usage) (kind : UsageKind) : Bool :=
  decide ((u.counter kind).limit ≤ (u.counter kind).used)

/-- Modelled from the spec: `incrementUsage` of the absent Usage model, the counter
of the kind goes up by one. -/
def Usage.incrementUsage (u : Usage) : UsageKind → Usage
  | .images => { u with images := { u.images with used := u.images.used + 1 } }
  | .videos => { u with videos := { u.videos with used := u.videos.used + 1 } }
  | .posts => { u with posts := { u.posts with used := u.posts.used + 1 } }

/-- Modelled from the spec: `Creation.create` of the absent Creation model; the
fields that the request does not give take the schema defaults (status
`generating`, nothing generated yet, private, no tags, no downloads). -/
def Creation.create (id userId : Nat) (body : CreateRequest) : Creation :=
  { id := id, userId := userId, type := body.type, title := body.title,
    description := body.description, prompt := body.prompt, style := body.style,
    size := body.size, duration := body.duration, quality := body.quality,
    status := .generating, fileUrl := none, thumbnailUrl := none, fileSize := 0,
    generationTime := 0, model := "", isPublic := false, tags := [],
    downloadCount := 0, metadataFormat := none }

/-- The document with the given id, as `Creation.findById`. -/
def Creation.findById (w : World) (id : Nat) : Option Creation :=
  w.creations.find? (fun c => c.id == id)

/-- Write the status path of the document with the given id, when there is one. -/
def World.writeStatus (w : World) (id : Nat) (s : Status) : World :=
  match Creation.findById w id with
  | none => w
  | some _ =>
    { w with
      creations := updateFirst (fun c => c.id == id) (fun c => { c with status := s }) w.creations
      log := w.log ++ [Effect.statusWrite id s] }

/-! ## createCreation -/

/-- The usage kind of a request type (line 21). -/
def usageType (type : String) : UsageKind :=
  if type = "image" then .images else .videos

/-- The Analytics event recorded by `createCreation` (lines 43-56). -/
def generatingEvent (userId entityId : Nat) (style quality : String) : AnalyticsEvent :=
  { userId := userId, type := "creation", entityId := entityId, entityType := "Creation",
    metrics :=
      { generationTime := some 0, fileSize := some 0, status := some "generating",
        model := some "VisionCast AI", style := some style, quality := some quality,
        action := none, timestamp := none, success := none } }

/-- The handler of `POST /api/creations` (lines 11-123). -/
def createCreation (f : CreateFaults) (w : World) (userId : Nat) (body : CreateRequest) :
    World × Response :=
  match Usage.findCurrent w userId with
  | none => (w, .error 404 "Usage record not found")
  | some currentUsage =>
    let kind := usageType body.type
    if currentUsage.isLimitExceeded kind then
      (w, .error 403
        ("You have reached your " ++ kind.name ++ " generation limit for this period"))
    else if f.createThrows then (w, .thrown)
    else
      let creation := Creation.create w.nextId userId body
      let w1 : World :=
        { w with
          creations := w.creations ++ [creation]
          nextId := w.nextId + 1
          log := w.log ++ [Effect.creationCreate creation.id] }
      if f.incrementThrows then (w1, .thrown)
      else
        let w2 : World :=
          { w1 with
            usages := updateFirst (fun u => u.userId == userId)
              (fun u => u.incrementUsage kind) w1.usages
            log := w1.log ++ [Effect.incrementUsage userId kind] }
        if f.analyticsThrows then (w2, .thrown)
        else
          let w3 : World :=
            { w2 with
              analytics := w2.analytics ++
                [generatingEvent userId creation.id body.style body.quality]
              log := w2.log ++ [Effect.analyticsCreate creation.id] }
          let job : Job :=
            { creationId := creation.id, userId := userId, type := body.type,
              title := body.title, size := body.size }
          let w4 : World :=
            { w3 with
              timers := w3.timers ++ [(job, 3000)]
              log := w3.log ++ [Effect.setTimeout creation.id 3000] }
          (w4, .creation 201 (some creation))

/-! ## The deferred completion -/

/-- The draws of `Math.random()` and `Date.now()` inside the deferred callback. -/
structure Env where
  now : Nat
  generationTime : Nat
  fileSize : Nat
  metricsFileSize : Nat
  deriving DecidableEq

/-- Which of the five collaborator calls of the deferred callback throws. -/
structure DeferredFaults where
  updateThrows : Bool
  patchThrows : Bool
  notifyThrows : Bool
  failUpdateThrows : Bool
  failNotifyThrows : Bool
  deriving DecidableEq

/-- The size token of the placeholder URL, `size || '1024/1024'` (line 65). -/
def sizeToken : Option String → String
  | none => "1024/1024"
  | some s => if s = "" then "1024/1024" else s

/-- The placeholder file URL of line 65. -/
def placeholderUrl (size : Option String) (now : Nat) : String :=
  "https://picsum.photos/" ++ sizeToken size ++ "?random=" ++ toString now

/-- The success write of lines 69-76: `Creation.findByIdAndUpdate` with the file data. -/
def World.completeCreation (w : World) (id : Nat) (fileUrl : String) (env : Env) : World :=
  match Creation.findById w id with
  | none => w
  | some _ =>
    { w with
      creations := updateFirst (fun c => c.id == id)
        (fun c => { c with
          status := .completed, fileUrl := some fileUrl, thumbnailUrl := some fileUrl,
          fileSize := env.fileSize, generationTime := env.generationTime,
          model := "VisionCast AI Pro" }) w.creations
      log := w.log ++ [Effect.statusWrite id .completed] }

/-- The selector of lines 79-80: the event of the entity with type `creation`. -/
def isCreationEvent (entityId : Nat) (e : AnalyticsEvent) : Bool :=
  e.entityId == entityId && e.type == "creation"

/-- The metric patch of lines 79-86: `Analytics.findOneAndUpdate`. -/
def World.patchAnalytics (w : World) (entityId : Nat) (env : Env) : World :=
  match w.analytics.find? (isCreationEvent entityId) with
  | none => w
  | some _ =>
    { w with
      analytics := updateFirst (isCreationEvent entityId)
        (fun e => { e with
          metrics := { e.metrics with
            generationTime := some env.generationTime
            fileSize := some env.metricsFileSize
            status := some "completed" } }) w.analytics
      log := w.log ++ [Effect.analyticsPatch entityId] }

/-- Modelled from the spec: `Notification.createNotification` of the absent
Notification model, which stores one notification. -/
def World.createNotification (w : World) (n : Notification) : World :=
  { w with
    notifications := w.notifications ++ [n]
    log := w.log ++ [Effect.notificationCreate n.kind n.data.creationId] }

/-- The notification of lines 89-96. -/
def completeNotification (job : Job) : Notification :=
  { userId := job.userId, kind := "generation_complete",
    title := (if job.type = "image" then "Image" else "Video") ++ " Generation Complete",
    body := "Your " ++ job.type ++ " \"" ++ job.title ++ "\" has been generated successfully!",
    data := { creationId := job.creationId, type := job.type, title := job.title },
    priority := "medium" }

/-- The notification of lines 106-113. -/
def failureNotification (job : Job) : Notification :=
  { userId := job.userId, kind := "system", title := "Generation Failed",
    body := "Failed to generate your " ++ job.type ++ ". Please try again.",
    data := { creationId := job.creationId, type := job.type, title := job.title },
    priority := "high" }

/-- The `catch` block of the deferred callback (lines 97-114). -/
def deferredFailure (f : DeferredFaults) (w : World) (job : Job) : World :=
  if f.failUpdateThrows then w
  else
    let w1 := w.writeStatus job.creationId .failed
    if f.failNotifyThrows then w1
    else w1.createNotification (failureNotification job)

/-- One run of the callback handed to `setTimeout` (lines 59-115). -/
def deferredCompletion (f : DeferredFaults) (env : Env) (w : World) (job : Job) : World :=
  let fileUrl := placeholderUrl job.size env.now
  if f.updateThrows then deferredFailure f w job
  else
    let w1 := w.completeCreation job.creationId fileUrl env
    if f.patchThrows then deferredFailure f w1 job
    else
      let w2 := w1.patchAnalytics job.creationId env
      if f.notifyThrows then deferredFailure f w2 job
      else w2.createNotification (completeNotification job)

/-! ## Reading -/

/-- A query-string value that is present and truthy. -/
def truthy : Option String → Option String
  | none => none
  | some s => if s = "" then none else some s

/-- The query string of the list endpoints. -/
structure ListQuery where
  page : Option Nat
  limit : Option Nat
  type : Option String
  status : Option String
  tags : Option String
  deriving DecidableEq

/-- The value of `Math.ceil(total / limit)`: `none` when the quotient is not finite. -/
def pageCount (total limit : Nat) : Option Nat :=
  if limit = 0 then none else some (Int.toNat ⌈(total : ℚ) / (limit : ℚ)⌉)

/-- The query chain `.skip(skip).limit(limit)`; a limit of zero means no limit. -/
def skipLimit (skip limit : Nat) (xs : List Creation) : List Creation :=
  if limit = 0 then xs.drop skip else (xs.drop skip).take limit

/-- The filter `{ userId, type?, status? }` of lines 134-136. -/
def ownedMatch (userId : Nat) (q : ListQuery) (c : Creation) : Bool :=
  c.userId == userId
    && (match truthy q.type with | none => true | some t => c.type == t)
    && (match truthy q.status with | none => true | some s => c.status.name == s)

/-- The shared tail of the two list handlers: skip, limit and the pagination block. -/
def listAnswer (w : World) (q : ListQuery) (sorted : List Creation) (total : Nat) :
    World × Response :=
  let page := q.page.getD 1
  let limit := q.limit.getD 20
  let skip : Int := ((page : Int) - 1) * (limit : Int)
  if skip < 0 then (w, .thrown)
  else
    (w, .list 200 (skipLimit skip.toNat limit sorted)
      { page := page, limit := limit, total := total, pages := pageCount total limit })

/-- The handler of `GET /api/creations` (lines 128-158); `sort` is the order asked for. -/
def getCreations (sort : List Creation → List Creation) (w : World) (userId : Nat)
    (q : ListQuery) : World × Response :=
  let found := sort (w.creations.filter (ownedMatch userId q))
  let total := (w.creations.filter (ownedMatch userId q)).length
  listAnswer w q found total

/-- Split a string at every occurrence of a separator, as `String.prototype.split`. -/
def splitChars (sep : Char) : List Char → List (List Char)
  | [] => [[]]
  | c :: cs =>
    if c = sep then [] :: splitChars sep cs
    else
      match splitChars sep cs with
      | [] => [[c]]
      | h :: t => (c :: h) :: t

/-- The options `{ type?, tags? }` of lines 310-312. -/
def publicOptions (q : ListQuery) : Option String × Option (List String) :=
  (truthy q.type, (truthy q.tags).map (fun s => (splitChars ',' s.data).map String.mk))

/-- Modelled from the spec: `Creation.findPublic` of the absent Creation model, the
public and completed creations of the asked type that carry one of the asked tags. -/
def publicMatch (q : ListQuery) (c : Creation) : Bool :=
  c.isPublic && c.status == .completed
    && (match (publicOptions q).1 with | none => true | some t => c.type == t)
    && (match (publicOptions q).2 with | none => true | some ts => ts.any (fun t => c.tags.contains t))

/-- The count filter `{ isPublic: true, status: 'completed', ...options }` of line 320. -/
def publicCountMatch (q : ListQuery) (c : Creation) : Bool :=
  c.isPublic && c.status == .completed
    && (match (publicOptions q).1 with | none => true | some t => c.type == t)
    && (match (publicOptions q).2 with | none => true | some ts => c.tags == ts)

/-- The handler of `GET /api/creations/public` (lines 305-334). -/
def getPublicCreations (sort : List Creation → List Creation) (w : World) (q : ListQuery) :
    World × Response :=
  let found := sort (w.creations.filter (publicMatch q))
  let total := (w.creations.filter (publicCountMatch q)).length
  listAnswer w q found total

/-- The handler of `GET /api/creations/:id` (lines 163-182); populating the owner
keeps the owner id. -/
def getCreation (w : World) (id requester : Nat) : World × Response :=
  match Creation.findById w id with
  | none => (w, .error 404 "Creation not found")
  | some creation =>
    if creation.userId != requester && !creation.isPublic then
      (w, .error 403 "You do not have permission to view this creation")
    else (w, .creation 200 (some creation))

/-! ## Updating -/

/-- The allow-list of line 199. -/
def allowedFields : List String := ["title", "description", "tags", "isPublic"]

/-- The keys of an object, as `Object.keys`. -/
def Obj.keys (o : Obj) : List String := o.map Prod.fst

/-- The value of a key, as `o[key]`. -/
def Obj.get (o : Obj) (key : String) : Option Value :=
  match o with
  | [] => none
  | (k, v) :: rest => if k = key then some v else Obj.get rest key

/-- The assignment `o[key] = v`: the key keeps its place when it is there already. -/
def Obj.set (o : Obj) (key : String) (v : Value) : Obj :=
  match o with
  | [] => [(key, v)]
  | (k, x) :: rest => if k = key then (k, v) :: rest else (k, x) :: Obj.set rest key v

/-- The loop of lines 200-206 over the keys of the body. -/
def filterBody (body : Obj) : Obj :=
  (Obj.keys body).foldl
    (fun filteredBody key =>
      if allowedFields.contains key then
        match Obj.get body key with
        | some v => Obj.set filteredBody key v
        | none => filteredBody
      else filteredBody)
    []

/-- Modelled from the spec: the schema of the absent Creation model for the four
updatable fields (title and description are strings, tags a list of strings,
isPublic a flag); a value of another type fails validation. -/
def Creation.setField (c : Creation) (key : String) (v : Value) : Option Creation :=
  if key = "title" then
    match v with
    | .str s => some { c with title := s }
    | _ => none
  else if key = "description" then
    match v with
    | .str s => some { c with description := s }
    | _ => none
  else if key = "tags" then
    match v with
    | .strs xs => some { c with tags := xs }
    | _ => none
  else if key = "isPublic" then
    match v with
    | .bool b => some { c with isPublic := b }
    | _ => none
  else some c

/-- The document after the patch, or nothing when a value fails validation. -/
def Creation.applyPatch (c : Creation) : Obj → Option Creation
  | [] => some c
  | (k, v) :: rest =>
    match c.setField k v with
    | none => none
    | some c1 => Creation.applyPatch c1 rest

/-- The handler of `PATCH /api/creations/:id` (lines 187-220). -/
def updateCreation (w : World) (id requester : Nat) (body : Obj) : World × Response :=
  match Creation.findById w id with
  | none => (w, .error 404 "Creation not found")
  | some creation =>
    if creation.userId != requester then
      (w, .error 403 "You do not have permission to update this creation")
    else
      let filteredBody := filterBody body
      match creation.applyPatch filteredBody with
      | none => (w, .thrown)
      | some updatedCreation =>
        ({ w with
            creations := updateFirst (fun c => c.id == id) (fun _ => updatedCreation) w.creations
            log := w.log ++ [Effect.creationUpdate id filteredBody] },
          .creation 200 (some updatedCreation))

/-! ## Deleting and downloading -/

/-- The identifier of line 241: `fileUrl.split('/').pop().split('.')[0]`. -/
def publicId (fileUrl : String) : String :=
  String.mk (((splitChars '.' ((splitChars '/' fileUrl.data).getLastD [])).head?).getD [])

/-- The `try` block of lines 238-246: the remote deletion is asked for when the
URL is truthy, and its failure is swallowed. -/
def removeRemoteFile (remoteThrows : Bool) (w : World) (creation : Creation) : World :=
  match truthy creation.fileUrl with
  | none => w
  | some fileUrl => w.emit (Effect.cloudinaryDelete (publicId fileUrl) (!remoteThrows))

/-- The handler of `DELETE /api/creations/:id` (lines 225-256); saving the document
writes its one modified path, the status. -/
def deleteCreation (remoteThrows : Bool) (w : World) (id requester : Nat) : World × Response :=
  match Creation.findById w id with
  | none => (w, .error 404 "Creation not found")
  | some creation =>
    if creation.userId != requester then
      (w, .error 403 "You do not have permission to delete this creation")
    else
      let w1 := removeRemoteFile remoteThrows w creation
      (w1.writeStatus id .deleted, .message 200 "Creation deleted successfully")

/-- The Analytics event recorded by `downloadCreation` (lines 281-291). -/
def downloadEvent (requester entityId now : Nat) : AnalyticsEvent :=
  { userId := requester, type := "creation", entityId := entityId, entityType := "Creation",
    metrics :=
      { generationTime := none, fileSize := none, status := none, model := none,
        style := none, quality := none, action := some "download",
        timestamp := some now, success := some true } }

/-- The handler of `GET /api/creations/:id/download` (lines 261-300). -/
def downloadCreation (now : Nat) (w : World) (id requester : Nat) : World × Response :=
  match Creation.findById w id with
  | none => (w, .error 404 "Creation not found")
  | some creation =>
    if creation.userId != requester && !creation.isPublic then
      (w, .error 403 "You do not have permission to download this creation")
    else if creation.status ≠ .completed then
      (w, .error 400 "Creation is not ready for download")
    else
      let w1 : World :=
        { w with
          creations := updateFirst (fun c => c.id == id)
            (fun c => { c with downloadCount := c.downloadCount + 1 }) w.creations
          log := w.log ++ [Effect.incrementDownloadCount id] }
      let w2 : World :=
        { w1 with
          analytics := w1.analytics ++ [downloadEvent requester creation.id now]
          log := w1.log ++ [Effect.analyticsCreate creation.id] }
      (w2, .download 200 creation.fileUrl
        (creation.title ++ "." ++ (truthy creation.metadataFormat).getD "jpg"))

/-! ## Sample worlds -/

/-- A user at the image limit, with room left for videos. -/
def sampleUsage : Usage :=
  { userId := 1, images := { used := 5, limit := 5 }, videos := { used := 0, limit := 2 },
    posts := { used := 0, limit := 1 } }

/-- A world holding nothing but the Usage record of user 1. -/
def sampleWorld : World :=
  { creations := [], usages := [sampleUsage], analytics := [], notifications := [],
    timers := [], nextId := 0, log := [] }

/-- An image request. -/
def imageRequest : CreateRequest :=
  { type := "image", title := "Sunset", description := "", prompt := "a sunset",
    style := "photo", size := some "512/512", duration := none, quality := "hd" }

/-- A video request. -/
def videoRequest : CreateRequest :=
  { type := "video", title := "Waves", description := "", prompt := "waves",
    style := "film", size := none, duration := some 5, quality := "hd" }

/-- No write of `createCreation` throws. -/
def noCreateFaults : CreateFaults :=
  { createThrows := false, incrementThrows := false, analyticsThrows := false }

/-- No call of the deferred callback throws. -/
def noDeferredFaults : DeferredFaults :=
  { updateThrows := false, patchThrows := false, notifyThrows := false,
    failUpdateThrows := false, failNotifyThrows := false }

/-- The Analytics patch of the deferred callback throws, nothing else does. -/
def patchFault : DeferredFaults :=
  { updateThrows := false, patchThrows := true, notifyThrows := false,
    failUpdateThrows := false, failNotifyThrows := false }

/-- The Creation update of the deferred callback throws, nothing else does. -/
def updateFault : DeferredFaults :=
  { updateThrows := true, patchThrows := false, notifyThrows := false,
    failUpdateThrows := false, failNotifyThrows := false }

/-- Sample draws of the deferred callback. -/
def sampleEnv : Env :=
  { now := 1700, generationTime := 3, fileSize := 2000000, metricsFileSize := 3000000 }

/-- The world after user 1 asked for a video in `sampleWorld`. -/
def createdWorld : World :=
  (createCreation noCreateFaults sampleWorld 1 videoRequest).1

/-- The callback scheduled by that request. -/
def sampleJob : Job :=
  { creationId := 0, userId := 1, type := "video", title := "Waves", size := none }

/-- The second page of two per page, no filter. -/
def secondPage : ListQuery :=
  { page := some 2, limit := some 2, type := none, status := none, tags := none }

/-! ## Reading the effect log -/

/-- The effects a step appended to the log. -/
def newEffects (before after : World) : List Effect :=
  after.log.drop before.log.length

/-- The statuses written to the Creation with the given id, in order. -/
def statusWrites (id : Nat) : List Effect → List Status
  | [] => []
  | Effect.statusWrite i s :: rest =>
    if i = id then s :: statusWrites id rest else statusWrites id rest
  | _ :: rest => statusWrites id rest

/-- The number of notifications created. -/
def notificationCount : List Effect → Nat
  | [] => 0
  | Effect.notificationCreate _ _ :: rest => notificationCount rest + 1
  | _ :: rest => notificationCount rest

/-- The status of the Creation with the given id. -/
def statusOf (w : World) (id : Nat) : Option Status :=
  (Creation.findById w id).map (fun c => c.status)

/-! ## The dashboard page (frontend/src/pages/Dashboard.jsx) -/

/-- The four counters of the dashboard. -/
structure DashboardStats where
  totalCreations : Nat
  totalPosts : Nat
  totalViews : Nat
  totalEngagement : Nat
  deriving DecidableEq

/-- The usage block of the dashboard. -/
structure DashboardUsage where
  images : Counter
  videos : Counter
  posts : Counter
  deriving DecidableEq

/-- An entry of the recent lists; the page only displays it. -/
structure RecentItem where
  id : Nat
  type : String
  title : String
  deriving DecidableEq

/-- The payload `{ stats, recentCreations, recentPosts, usage }`. -/
structure DashboardData where
  stats : DashboardStats
  recentCreations : List RecentItem
  recentPosts : List RecentItem
  usage : DashboardUsage
  deriving DecidableEq

/-- The body the API call resolves with. -/
structure ApiResponse where
  status : String
  message : Option String
  data : Option DashboardData
  deriving DecidableEq

/-- A value a promise rejects with or a `throw` raises: `null` or `undefined`, or
any other value together with what its `message` property reads as (an Error
object has a message; a string or a plain object may have none). -/
inductive Thrown where
  | nullish
  | value (message : Option String)
  deriving DecidableEq

/-- How `apiService.users.getDashboard()` ends: it rejects with some value, or it
resolves with a body (`none` for a body that is `null` or `undefined`). -/
inductive ApiResult where
  | rejects (error : Thrown)
  | resolves (response : Option ApiResponse)
  deriving DecidableEq

/-- The three pieces of React state of the page. -/
structure DashState where
  dashboardData : Option DashboardData
  loading : Bool
  error : Option String
  deriving DecidableEq

/-- How an async function ends. -/
inductive Completion where
  | returned
  | rethrown (message : String)
  deriving DecidableEq

/-- The fallback object of lines 31-36. -/
def fallbackData : DashboardData :=
  { stats := { totalCreations := 0, totalPosts := 0, totalViews := 0, totalEngagement := 0 },
    recentCreations := [],
    recentPosts := [],
    usage :=
      { images := { used := 0, limit := 10 }, videos := { used := 0, limit := 3 },
        posts := { used := 0, limit := 20 } } }

/-- The `try` block of lines 17-26: the state when the block is left, and the
value it was left with by a throw, if any.  `typeError name` is the message of the
TypeError the engine raises for reading the property `name` of `null` or
`undefined`. -/
def dashboardTry (typeError : String → String) (api : ApiResult) (s : DashState) :
    DashState × Option Thrown :=
  let s1 : DashState := { s with loading := true }
  let s2 : DashState := { s1 with error := none }
  match api with
  | .rejects error => (s2, some error)
  | .resolves none => (s2, some (.value (some (typeError "status"))))
  | .resolves (some response) =>
    if response.status = "success" then
      ({ s2 with dashboardData := response.data }, none)
    else
      (s2, some (.value
        (some ((truthy response.message).getD "Failed to fetch dashboard data"))))

/-- The function `getDashboardData` of lines 16-40.  The `catch` block reads
`error.message` (line 29) and then stores the fallback object (lines 31-36);
reading the message of `null` or `undefined` throws, which leaves the `catch`
block before the fallback is stored.  The `finally` block clears `loading` on
every path. -/
def getDashboardData (typeError : String → String) (api : ApiResult) (s : DashState) :
    DashState × Completion :=
  let tried := dashboardTry typeError api s
  match tried.2 with
  | none => ({ tried.1 with loading := false }, .returned)
  | some .nullish =>
    ({ tried.1 with loading := false }, .rethrown (typeError "message"))
  | some (.value message) =>
    ({ tried.1 with error := message, dashboardData := some fallbackData, loading := false },
      .returned)

/-- The state of the page before the first fetch (lines 10-12). -/
def initialDashState : DashState :=
  { dashboardData := none, loading := true, error := none }

/-- A request whose type is neither `image` nor `video`. -/
def postRequest : CreateRequest :=
  { type := "post", title := "Launch", description := "", prompt := "a launch post",
    style := "plain", size := none, duration := none, quality := "hd" }

/-! ## The type constraint, as the specification words it -/

/-- The known usage kind of a request type in the words of the specification
(`image` → images, `video` → videos); any other type has none. -/
def usageKindSpec (type : String) : Option UsageKind :=
  if type = "image" then some .images
  else if type = "video" then some .videos
  else none

/-! ## Store lemmas -/

theorem find_updateFirst {α : Type} (p : α → Bool) (f : α → α) (hf : ∀ x, p x = true → p (f x) = true)
    (xs : List α) : (updateFirst p f xs).find? p = (xs.find? p).map f := by
  induction xs with
  | nil => rfl
  | cons x xs ih =>
    by_cases hx : p x = true
    · simp [updateFirst, hx, List.find?, hf x hx]
    · simp [updateFirst, hx, List.find?, ih]

theorem length_updateFirst {α : Type} (p : α → Bool) (f : α → α) (xs : List α) :
    (updateFirst p f xs).length = xs.length := by
  induction xs with
  | nil => rfl
  | cons x xs ih =>
    by_cases hx : p x = true
    · simp [updateFirst, hx]
    · simp [updateFirst, hx, ih]

theorem updateFirst_const_of_find {α : Type} (p : α → Bool) (c : α) (xs : List α)
    (h : xs.find? p = some c) : updateFirst p (fun _ => c) xs = xs := by
  induction xs with
  | nil => simp at h
  | cons x xs ih =>
    by_cases hx : p x = true
    · simp [List.find?, hx] at h
      subst h
      simp [updateFirst, hx]
    · simp [List.find?, hx] at h
      simp [updateFirst, hx, ih h]

/-! ## createCreation -/

/-- C1: when the current Usage record of the user has the counter of the requested
kind at or over its limit, `createCreation` answers 403 and leaves the world as it
was: no Creation, no usage increment, no Analytics event, no timer, no log entry. -/
theorem createCreation_limit_exceeded (f : CreateFaults) (w : World) (userId : Nat)
    (body : CreateRequest) (u : Usage)
    (hu : Usage.findCurrent w userId = some u)
    (hx : (u.counter (usageType body.type)).limit ≤ (u.counter (usageType body.type)).used) :
    u.isLimitExceeded (usageType body.type) = true
      ∧ createCreation f w userId body
        = (w, Response.error 403
            ("You have reached your " ++ (usageType body.type).name
              ++ " generation limit for this period")) := by
  have hlim : u.isLimitExceeded (usageType body.type) = true := by
    simp [Usage.isLimitExceeded, hx]
  refine ⟨hlim, ?_⟩
  simp [createCreation, hu, hlim]

theorem createCreation_limit_exceeded_witness :
    Usage.findCurrent sampleWorld 1 = some sampleUsage
      ∧ createCreation noCreateFaults sampleWorld 1 imageRequest
        = (sampleWorld, Response.error 403
            "You have reached your images generation limit for this period") :=
  ⟨by decide,
    (createCreation_limit_exceeded noCreateFaults sampleWorld 1 imageRequest sampleUsage
      (by decide) (by decide)).2⟩

/-- C2: a create request that passes the usage check and whose three writes succeed
answers 201 with the pending Creation, and the world it answers in holds exactly
one more Creation (status `generating`), the user's counter of the mapped kind
raised by one, exactly one more Analytics event of type `creation` with the
initial metrics, and one pending timer; the log gains the create, the increment,
the Analytics event and the timer, in that order, and no notification exists yet. -/
theorem createCreation_success (f : CreateFaults) (w : World) (userId : Nat)
    (body : CreateRequest) (u : Usage)
    (hu : Usage.findCurrent w userId = some u)
    (hx : u.isLimitExceeded (usageType body.type) = false)
    (h1 : f.createThrows = false) (h2 : f.incrementThrows = false)
    (h3 : f.analyticsThrows = false) :
    (createCreation f w userId body).2
        = Response.creation 201 (some (Creation.create w.nextId userId body))
      ∧ (Creation.create w.nextId userId body).status = Status.generating
      ∧ (createCreation f w userId body).1.creations
        = w.creations ++ [Creation.create w.nextId userId body]
      ∧ Usage.findCurrent (createCreation f w userId body).1 userId
        = some (u.incrementUsage (usageType body.type))
      ∧ (createCreation f w userId body).1.usages.length = w.usages.length
      ∧ (createCreation f w userId body).1.analytics
        = w.analytics ++ [generatingEvent userId w.nextId body.style body.quality]
      ∧ (generatingEvent userId w.nextId body.style body.quality).type = "creation"
      ∧ (generatingEvent userId w.nextId body.style body.quality).metrics
        = { generationTime := some 0, fileSize := some 0, status := some "generating",
            model := some "VisionCast AI", style := some body.style,
            quality := some body.quality, action := none, timestamp := none,
            success := none }
      ∧ newEffects w (createCreation f w userId body).1
        = [Effect.creationCreate w.nextId,
           Effect.incrementUsage userId (usageType body.type),
           Effect.analyticsCreate w.nextId,
           Effect.setTimeout w.nextId 3000]
      ∧ (createCreation f w userId body).1.timers
        = w.timers ++ [({ creationId := w.nextId, userId := userId, type := body.type,
                          title := body.title, size := body.size }, 3000)]
      ∧ (createCreation f w userId body).1.notifications = w.notifications := by
  have hfind : (updateFirst (fun u => u.userId == userId)
      (fun u => u.incrementUsage (usageType body.type)) w.usages).find?
        (fun u => u.userId == userId) = some (u.incrementUsage (usageType body.type)) := by
    rw [find_updateFirst]
    · unfold Usage.findCurrent at hu
      rw [hu]; rfl
    · intro x hxp
      cases hk : usageType body.type <;> simpa [Usage.incrementUsage] using hxp
  simp only [createCreation, hu, hx, h1, h2, h3]
  refine ⟨rfl, rfl, rfl, ?_, ?_, rfl, rfl, rfl, ?_, rfl, rfl⟩
  · simpa [Usage.findCurrent, Creation.create] using hfind
  · simp [length_updateFirst]
  · simp [newEffects, Creation.create]

theorem createCreation_success_witness :
    Usage.findCurrent sampleWorld 1 = some sampleUsage
      ∧ (createCreation noCreateFaults sampleWorld 1 videoRequest).2
        = Response.creation 201 (some (Creation.create 0 1 videoRequest))
      ∧ newEffects sampleWorld (createCreation noCreateFaults sampleWorld 1 videoRequest).1
        = [Effect.creationCreate 0, Effect.incrementUsage 1 UsageKind.videos,
           Effect.analyticsCreate 0, Effect.setTimeout 0 3000] :=
  have h := createCreation_success noCreateFaults sampleWorld 1 videoRequest sampleUsage
    (by decide) (by decide) rfl rfl rfl
  ⟨by decide, h.1, h.2.2.2.2.2.2.2.2.1⟩

/-! ## The deferred completion -/

theorem isSome_find_updateFirst {α : Type} (p : α → Bool) (f : α → α)
    (hf : ∀ x, p x = true → p (f x) = true) (xs : List α) :
    ((updateFirst p f xs).find? p).isSome = (xs.find? p).isSome := by
  rw [find_updateFirst p f hf]
  cases xs.find? p <;> rfl

theorem log_writeStatus (w : World) (id : Nat) (s : Status)
    (h : (Creation.findById w id).isSome = true) :
    (w.writeStatus id s).log = w.log ++ [Effect.statusWrite id s] := by
  unfold World.writeStatus
  cases hc : Creation.findById w id with
  | none => simp [hc] at h
  | some c => rfl

theorem log_completeCreation (w : World) (id : Nat) (url : String) (env : Env)
    (h : (Creation.findById w id).isSome = true) :
    (w.completeCreation id url env).log = w.log ++ [Effect.statusWrite id Status.completed] := by
  unfold World.completeCreation
  cases hc : Creation.findById w id with
  | none => simp [hc] at h
  | some c => rfl

theorem isSome_findById_completeCreation (w : World) (id : Nat) (url : String) (env : Env) :
    (Creation.findById (w.completeCreation id url env) id).isSome
      = (Creation.findById w id).isSome := by
  unfold World.completeCreation
  cases hc : Creation.findById w id with
  | none => simp [hc]
  | some c =>
    simp only [Creation.findById]
    rw [isSome_find_updateFirst]
    · exact congrArg Option.isSome hc
    · intro x hx
      exact hx

theorem isSome_findById_patchAnalytics (w : World) (id entityId : Nat) (env : Env) :
    (Creation.findById (w.patchAnalytics entityId env) id).isSome
      = (Creation.findById w id).isSome := by
  unfold World.patchAnalytics
  cases w.analytics.find? (isCreationEvent entityId) <;> rfl

theorem newEffects_append (w w1 : World) (l : List Effect) (h : w1.log = w.log ++ l) :
    newEffects w w1 = l := by
  simp [newEffects, h]

theorem log_patchAnalytics (w : World) (entityId : Nat) (env : Env) :
    (w.patchAnalytics entityId env).log = w.log
      ∨ (w.patchAnalytics entityId env).log = w.log ++ [Effect.analyticsPatch entityId] := by
  unfold World.patchAnalytics
  cases w.analytics.find? (isCreationEvent entityId)
  · exact Or.inl rfl
  · exact Or.inr rfl

theorem statusWrites_append (id : Nat) (a b : List Effect) :
    statusWrites id (a ++ b) = statusWrites id a ++ statusWrites id b := by
  induction a with
  | nil => rfl
  | cons e a ih =>
    cases e <;> simp [statusWrites, ih]
    split <;> simp

theorem notificationCount_append (a b : List Effect) :
    notificationCount (a ++ b) = notificationCount a + notificationCount b := by
  induction a with
  | nil => simp [notificationCount]
  | cons e a ih =>
    cases e <;> simp [notificationCount, ih]
    omega

/-- The effects of the `catch` block, given that the record exists. -/
theorem deferredFailure_effects (f : DeferredFaults) (w : World) (job : Job)
    (h : (Creation.findById w job.creationId).isSome = true) :
    ∃ l, (deferredFailure f w job).log = w.log ++ l
      ∧ statusWrites job.creationId l
        = (if f.failUpdateThrows then [] else [Status.failed])
      ∧ notificationCount l
        = (if !f.failUpdateThrows && !f.failNotifyThrows then 1 else 0) := by
  unfold deferredFailure
  cases hd : f.failUpdateThrows
  · cases he : f.failNotifyThrows
    · refine ⟨[Effect.statusWrite job.creationId Status.failed,
        Effect.notificationCreate "system" job.creationId], ?_, ?_, ?_⟩
      · simp [World.createNotification, log_writeStatus w _ _ h, failureNotification]
      · simp [statusWrites]
      · simp [notificationCount]
    · refine ⟨[Effect.statusWrite job.creationId Status.failed], ?_, ?_, ?_⟩
      · simp [log_writeStatus w _ _ h]
      · simp [statusWrites]
      · simp [notificationCount]
  · exact ⟨[], by simp, by simp [statusWrites], by simp [notificationCount]⟩

/-- The effects of one run of the deferred callback, given that the record exists. -/
theorem deferredCompletion_effects (f : DeferredFaults) (env : Env) (w : World) (job : Job)
    (h : (Creation.findById w job.creationId).isSome = true) :
    ∃ l, (deferredCompletion f env w job).log = w.log ++ l
      ∧ statusWrites job.creationId l
        = (if f.updateThrows then [] else [Status.completed])
          ++ (if (f.updateThrows || f.patchThrows || f.notifyThrows) && !f.failUpdateThrows
              then [Status.failed] else [])
      ∧ notificationCount l
        = (if f.updateThrows || f.patchThrows || f.notifyThrows then
            (if !f.failUpdateThrows && !f.failNotifyThrows then 1 else 0)
          else 1) := by
  unfold deferredCompletion
  cases ha : f.updateThrows
  · -- the Creation update went through
    have hlog1 := log_completeCreation w job.creationId (placeholderUrl job.size env.now) env h
    have hsome1 : (Creation.findById
        (w.completeCreation job.creationId (placeholderUrl job.size env.now) env)
        job.creationId).isSome = true := by
      rw [isSome_findById_completeCreation]; exact h
    cases hb : f.patchThrows
    · have hsome2 : (Creation.findById
          ((w.completeCreation job.creationId (placeholderUrl job.size env.now) env).patchAnalytics
            job.creationId env) job.creationId).isSome = true := by
        rw [isSome_findById_patchAnalytics]; exact hsome1
      have hlog2 := log_patchAnalytics
        (w.completeCreation job.creationId (placeholderUrl job.size env.now) env)
        job.creationId env
      cases hc : f.notifyThrows
      · -- every call of the success path went through
        rcases hlog2 with hp | hp
        · refine ⟨[Effect.statusWrite job.creationId Status.completed,
            Effect.notificationCreate "generation_complete" job.creationId], ?_, ?_, ?_⟩
          · simp [World.createNotification, hp, hlog1, completeNotification]
          · simp [statusWrites]
          · simp [notificationCount]
        · refine ⟨[Effect.statusWrite job.creationId Status.completed,
            Effect.analyticsPatch job.creationId,
            Effect.notificationCreate "generation_complete" job.creationId], ?_, ?_, ?_⟩
          · simp [World.createNotification, hp, hlog1, completeNotification]
          · simp [statusWrites]
          · simp [notificationCount]
      · -- the notification threw
        obtain ⟨l, hl, hs, hn⟩ := deferredFailure_effects f _ job hsome2
        rcases hlog2 with hp | hp
        · refine ⟨Effect.statusWrite job.creationId Status.completed :: l, ?_, ?_, ?_⟩
          · simp [hl, hp, hlog1]
          · simp only [statusWrites, hs]
            cases f.failUpdateThrows <;> simp
          · simp [notificationCount, hn]
        · refine ⟨Effect.statusWrite job.creationId Status.completed
            :: Effect.analyticsPatch job.creationId :: l, ?_, ?_, ?_⟩
          · simp [hl, hp, hlog1]
          · simp only [statusWrites, hs]
            cases f.failUpdateThrows <;> simp
          · simp [notificationCount, hn]
    · -- the Analytics patch threw
      obtain ⟨l, hl, hs, hn⟩ := deferredFailure_effects f _ job hsome1
      refine ⟨Effect.statusWrite job.creationId Status.completed :: l, ?_, ?_, ?_⟩
      · simp [hl, hlog1]
      · simp only [statusWrites, hs]
        cases f.failUpdateThrows <;> simp
      · simp [notificationCount, hn]
  · -- the Creation update threw
    obtain ⟨l, hl, hs, hn⟩ := deferredFailure_effects f w job h
    refine ⟨l, by simpa using hl, ?_, by simpa using hn⟩
    rw [hs]
    cases f.failUpdateThrows <;> simp

/-- C3, as the code has it: for every outcome of the five collaborator calls, one
run of the deferred completion on an existing Creation writes `completed` exactly
when the Creation update does not throw, writes `failed` after it exactly when a
call of the success path threw and the handler's update does not throw, and
creates one Notification when no call of the success path throws or when both
handler calls go through, and none otherwise. -/
theorem deferredCompletion_outcomes (f : DeferredFaults) (env : Env) (w : World) (job : Job)
    (h : (Creation.findById w job.creationId).isSome = true) :
    statusWrites job.creationId (newEffects w (deferredCompletion f env w job))
        = (if f.updateThrows then [] else [Status.completed])
          ++ (if (f.updateThrows || f.patchThrows || f.notifyThrows) && !f.failUpdateThrows
              then [Status.failed] else [])
      ∧ notificationCount (newEffects w (deferredCompletion f env w job))
        = (if f.updateThrows || f.patchThrows || f.notifyThrows then
            (if !f.failUpdateThrows && !f.failNotifyThrows then 1 else 0)
          else 1) := by
  obtain ⟨l, hl, hs, hn⟩ := deferredCompletion_effects f env w job h
  rw [newEffects_append w _ l hl]
  exact ⟨hs, hn⟩

theorem deferredCompletion_outcomes_witness :
    (Creation.findById createdWorld sampleJob.creationId).isSome = true
      ∧ statusWrites 0 (newEffects createdWorld
          (deferredCompletion noDeferredFaults sampleEnv createdWorld sampleJob))
        = [Status.completed]
      ∧ notificationCount (newEffects createdWorld
          (deferredCompletion noDeferredFaults sampleEnv createdWorld sampleJob)) = 1 :=
  ⟨by decide,
    deferredCompletion_outcomes noDeferredFaults sampleEnv createdWorld sampleJob (by decide)⟩

/-- C3 fails as stated: after a successful create, a run whose Analytics patch
throws writes both `completed` and `failed` to the Creation. -/
theorem deferredCompletion_two_statuses :
    createdWorld.timers = [(sampleJob, 3000)]
      ∧ statusWrites 0 (newEffects createdWorld
          (deferredCompletion patchFault sampleEnv createdWorld sampleJob))
        = [Status.completed, Status.failed] := by
  decide

/-! ## Status transitions -/

theorem statusOf_writeStatus (w : World) (id : Nat) (s : Status)
    (h : (Creation.findById w id).isSome = true) :
    statusOf (w.writeStatus id s) id = some s := by
  unfold World.writeStatus statusOf
  cases hc : Creation.findById w id with
  | none => simp [hc] at h
  | some c =>
    simp only [Creation.findById]
    rw [find_updateFirst]
    · simp only [Creation.findById] at hc
      rw [hc]; rfl
    · intro x hx
      exact hx

theorem statusOf_completeCreation (w : World) (id : Nat) (url : String) (env : Env)
    (h : (Creation.findById w id).isSome = true) :
    statusOf (w.completeCreation id url env) id = some Status.completed := by
  unfold World.completeCreation statusOf
  cases hc : Creation.findById w id with
  | none => simp [hc] at h
  | some c =>
    simp only [Creation.findById]
    rw [find_updateFirst]
    · simp only [Creation.findById] at hc
      rw [hc]; rfl
    · intro x hx
      exact hx

theorem statusOf_patchAnalytics (w : World) (id entityId : Nat) (env : Env) :
    statusOf (w.patchAnalytics entityId env) id = statusOf w id := by
  unfold World.patchAnalytics statusOf
  cases w.analytics.find? (isCreationEvent entityId) <;> rfl

theorem statusOf_createNotification (w : World) (id : Nat) (n : Notification) :
    statusOf (w.createNotification n) id = statusOf w id := rfl

theorem statusOf_emit (w : World) (id : Nat) (e : Effect) :
    statusOf (w.emit e) id = statusOf w id := rfl

theorem isSome_findById_removeRemoteFile (remoteThrows : Bool) (w : World) (c : Creation)
    (id : Nat) :
    (Creation.findById (removeRemoteFile remoteThrows w c) id).isSome
      = (Creation.findById w id).isSome := by
  unfold removeRemoteFile
  cases truthy c.fileUrl <;> rfl

/-- The status writes of a soft delete by the owner. -/
theorem deleteCreation_status (remoteThrows : Bool) (w : World) (id : Nat) (c : Creation)
    (hc : Creation.findById w id = some c) :
    statusOf (deleteCreation remoteThrows w id c.userId).1 id = some Status.deleted
      ∧ statusWrites id (newEffects w (deleteCreation remoteThrows w id c.userId).1)
        = [Status.deleted] := by
  have hsome : (Creation.findById (removeRemoteFile remoteThrows w c) id).isSome = true := by
    rw [isSome_findById_removeRemoteFile, hc]; rfl
  simp only [deleteCreation, hc, bne_self_eq_false, Bool.false_eq_true, if_false]
  refine ⟨statusOf_writeStatus _ id _ hsome, ?_⟩
  cases ht : truthy c.fileUrl with
  | none =>
    have hw : removeRemoteFile remoteThrows w c = w := by simp [removeRemoteFile, ht]
    rw [hw] at hsome ⊢
    rw [newEffects_append w _ _ (log_writeStatus w id _ hsome)]
    simp [statusWrites]
  | some url =>
    have hw : removeRemoteFile remoteThrows w c
        = w.emit (Effect.cloudinaryDelete (publicId url) (!remoteThrows)) := by
      simp [removeRemoteFile, ht]
    rw [hw] at hsome ⊢
    have hlog := log_writeStatus _ id Status.deleted hsome
    rw [newEffects_append w _
      [Effect.cloudinaryDelete (publicId url) (!remoteThrows), Effect.statusWrite id Status.deleted]
      (by simpa [World.emit] using hlog)]
    simp [statusWrites]

/-- C4, as the code has it: the orchestrator writes no status but `completed`,
`failed` (deferred completion) and `deleted` (soft delete).  A soft delete by the
owner moves a Creation of any status to `deleted`.  Run on a Creation that is
still `generating`, the deferred completion performs generating → completed when
none of its calls throws, and generating → failed when its Creation update throws
and the handler's update goes through.  The writes do not read the status the
Creation has. -/
theorem status_transitions :
    (∀ (remoteThrows : Bool) (w : World) (id : Nat) (c : Creation),
        Creation.findById w id = some c →
        statusOf (deleteCreation remoteThrows w id c.userId).1 id = some Status.deleted
          ∧ statusWrites id (newEffects w (deleteCreation remoteThrows w id c.userId).1)
            = [Status.deleted])
      ∧ (∀ (env : Env) (w : World) (job : Job),
        statusOf w job.creationId = some Status.generating →
        statusOf (deferredCompletion noDeferredFaults env w job) job.creationId
            = some Status.completed
          ∧ statusWrites job.creationId
              (newEffects w (deferredCompletion noDeferredFaults env w job))
            = [Status.completed])
      ∧ (∀ (f : DeferredFaults) (env : Env) (w : World) (job : Job),
        statusOf w job.creationId = some Status.generating →
        f.updateThrows = true → f.failUpdateThrows = false →
        statusOf (deferredCompletion f env w job) job.creationId = some Status.failed
          ∧ statusWrites job.creationId (newEffects w (deferredCompletion f env w job))
            = [Status.failed])
      ∧ (∀ (f : DeferredFaults) (env : Env) (w : World) (job : Job) (s : Status),
        (Creation.findById w job.creationId).isSome = true →
        s ∈ statusWrites job.creationId (newEffects w (deferredCompletion f env w job)) →
        s = Status.completed ∨ s = Status.failed) := by
  have hsome : ∀ (w : World) (id : Nat) (s : Status), statusOf w id = some s →
      (Creation.findById w id).isSome = true := by
    intro w id s h
    unfold statusOf at h
    cases hc : Creation.findById w id with
    | none => simp [hc] at h
    | some c => rfl
  refine ⟨?_, ?_, ?_, ?_⟩
  · intro remoteThrows w id c hc
    exact deleteCreation_status remoteThrows w id c hc
  · intro env w job hg
    have h := hsome w _ _ hg
    obtain ⟨l, hl, hs, _⟩ := deferredCompletion_effects noDeferredFaults env w job h
    refine ⟨?_, ?_⟩
    · simp only [deferredCompletion, noDeferredFaults, Bool.false_eq_true, if_false]
      rw [statusOf_createNotification, statusOf_patchAnalytics]
      exact statusOf_completeCreation w _ _ env h
    · rw [newEffects_append w _ l hl, hs]
      simp [noDeferredFaults]
  · intro f env w job hg ha hd
    have h := hsome w _ _ hg
    obtain ⟨l, hl, hs, _⟩ := deferredCompletion_effects f env w job h
    refine ⟨?_, ?_⟩
    · simp only [deferredCompletion, deferredFailure, ha, hd, if_true, Bool.false_eq_true,
        if_false]
      cases f.failNotifyThrows
      · simp only [Bool.false_eq_true, if_false]
        rw [statusOf_createNotification]
        exact statusOf_writeStatus w _ _ h
      · simp only [if_true]
        exact statusOf_writeStatus w _ _ h
    · rw [newEffects_append w _ l hl, hs]
      simp [ha, hd]
  · intro f env w job s h hs
    obtain ⟨l, hl, hw, _⟩ := deferredCompletion_effects f env w job h
    rw [newEffects_append w _ l hl, hw] at hs
    rcases List.mem_append.mp hs with h1 | h1
    · left
      split at h1 <;> simp_all
    · right
      split at h1 <;> simp_all

theorem status_transitions_witness :
    statusOf createdWorld sampleJob.creationId = some Status.generating
      ∧ statusOf (deferredCompletion noDeferredFaults sampleEnv createdWorld sampleJob)
          sampleJob.creationId = some Status.completed
      ∧ statusWrites sampleJob.creationId
          (newEffects createdWorld
            (deferredCompletion noDeferredFaults sampleEnv createdWorld sampleJob))
        = [Status.completed] :=
  ⟨by decide, status_transitions.2.1 sampleEnv createdWorld sampleJob (by decide)⟩

/-- C4 fails as stated: a Creation that its owner deleted before the timer fired is
moved from `deleted` to `completed` by the deferred completion. -/
theorem deleted_moved_to_completed :
    createdWorld.timers = [(sampleJob, 3000)]
      ∧ statusOf (deleteCreation false createdWorld 0 1).1 0 = some Status.deleted
      ∧ statusOf (deferredCompletion noDeferredFaults sampleEnv
          (deleteCreation false createdWorld 0 1).1 sampleJob) 0 = some Status.completed := by
  decide

/-! ## Reading and downloading -/

/-- C5: for an existing Creation, `getCreation` answers 200 with the record exactly
when the requester is the owner or the Creation is public, and 403 otherwise; for
an id without a record it answers 404, whoever asks.  The world is left as it was. -/
theorem getCreation_visibility (w : World) (id requester : Nat) :
    (∀ c : Creation, Creation.findById w id = some c →
        (getCreation w id requester = (w, Response.creation 200 (some c))
          ↔ (requester = c.userId ∨ c.isPublic = true))
        ∧ (¬ (requester = c.userId ∨ c.isPublic = true) →
          getCreation w id requester
            = (w, Response.error 403 "You do not have permission to view this creation")))
      ∧ (Creation.findById w id = none →
        getCreation w id requester = (w, Response.error 404 "Creation not found")) := by
  refine ⟨?_, ?_⟩
  · intro c hc
    by_cases hown : requester = c.userId
    · subst hown
      simp [getCreation, hc]
    · have hne : (c.userId != requester) = true := by
        simpa [bne_iff_ne] using fun h : c.userId = requester => hown h.symm
      cases hpub : c.isPublic <;> simp [getCreation, hc, hne, hpub, hown]
  · intro hc
    simp [getCreation, hc]

theorem getCreation_visibility_witness :
    Creation.findById createdWorld 0 = some (Creation.create 0 1 videoRequest)
      ∧ getCreation createdWorld 0 1
        = (createdWorld, Response.creation 200 (some (Creation.create 0 1 videoRequest)))
      ∧ getCreation createdWorld 0 2
        = (createdWorld, Response.error 403 "You do not have permission to view this creation")
      ∧ getCreation createdWorld 7 1
        = (createdWorld, Response.error 404 "Creation not found") :=
  ⟨by decide,
    ((getCreation_visibility createdWorld 0 1).1 (Creation.create 0 1 videoRequest)
      (by decide)).1.mpr (Or.inl rfl),
    ((getCreation_visibility createdWorld 0 2).1 (Creation.create 0 1 videoRequest)
      (by decide)).2 (by decide),
    (getCreation_visibility createdWorld 7 1).2 (by decide)⟩

/-- C6, as the code has it: for a Creation whose status is `generating` or `failed`,
`downloadCreation` answers 400 when the requester is the owner or the Creation is
public, and 403 for any other requester; either way the world is left as it was,
so the download counter is not incremented and no Analytics event is recorded. -/
theorem downloadCreation_not_ready (now : Nat) (w : World) (id requester : Nat) (c : Creation)
    (hc : Creation.findById w id = some c)
    (hs : c.status = Status.generating ∨ c.status = Status.failed) :
    downloadCreation now w id requester
      = (w, if c.userId = requester ∨ c.isPublic = true then
              Response.error 400 "Creation is not ready for download"
            else Response.error 403 "You do not have permission to download this creation") := by
  have hnc : c.status ≠ Status.completed := by
    rcases hs with h | h <;> simp [h]
  by_cases hown : c.userId = requester
  · simp [downloadCreation, hc, hown, hnc]
  · cases hpub : c.isPublic <;> simp [downloadCreation, hc, hown, hpub, hnc]

theorem downloadCreation_not_ready_witness :
    Creation.findById createdWorld 0 = some (Creation.create 0 1 videoRequest)
      ∧ downloadCreation 1700 createdWorld 0 1
        = (createdWorld, Response.error 400 "Creation is not ready for download") :=
  ⟨by decide,
    downloadCreation_not_ready 1700 createdWorld 0 1 (Creation.create 0 1 videoRequest)
      (by decide) (Or.inl rfl)⟩

/-- C6 fails as stated: a requester who is not the owner of a private Creation that
is still `generating` is answered 403, not 400. -/
theorem downloadCreation_private_forbidden :
    statusOf createdWorld 0 = some Status.generating
      ∧ downloadCreation 1700 createdWorld 0 2
        = (createdWorld,
            Response.error 403 "You do not have permission to download this creation") := by
  decide

/-! ## Owner-only writes -/

theorem find_updateFirst_other {α : Type} (p q : α → Bool) (f : α → α)
    (hq : ∀ x, q (f x) = q x) (hpq : ∀ x, p x = true → q x = false) (xs : List α) :
    (updateFirst p f xs).find? q = xs.find? q := by
  induction xs with
  | nil => rfl
  | cons x xs ih =>
    by_cases hx : p x = true
    · simp [updateFirst, hx, List.find?, hq x, hpq x hx]
    · simp [updateFirst, hx, List.find?, ih]

/-- C8: a requester who is not the owner of an existing Creation is answered 403 by
`updateCreation` and by `deleteCreation`, whatever the `isPublic` flag, and the
world is left as it was: no write to the Creation, no remote deletion. -/
theorem nonowner_write_forbidden (remoteThrows : Bool) (w : World) (id requester : Nat)
    (body : Obj) (c : Creation)
    (hc : Creation.findById w id = some c) (hne : requester ≠ c.userId) :
    updateCreation w id requester body
        = (w, Response.error 403 "You do not have permission to update this creation")
      ∧ deleteCreation remoteThrows w id requester
        = (w, Response.error 403 "You do not have permission to delete this creation") := by
  have h : (c.userId != requester) = true := by
    simpa [bne_iff_ne] using fun h : c.userId = requester => hne h.symm
  constructor
  · simp [updateCreation, hc, h]
  · simp [deleteCreation, hc, h]

theorem nonowner_write_forbidden_witness :
    (Creation.findById
        (updateCreation createdWorld 0 1 [("isPublic", Value.bool true)]).1 0).map
          (fun c => (c.userId, c.isPublic)) = some (1, true)
      ∧ deleteCreation false
          (updateCreation createdWorld 0 1 [("isPublic", Value.bool true)]).1 0 2
        = ((updateCreation createdWorld 0 1 [("isPublic", Value.bool true)]).1,
            Response.error 403 "You do not have permission to delete this creation") :=
  ⟨by decide,
    (nonowner_write_forbidden false
      (updateCreation createdWorld 0 1 [("isPublic", Value.bool true)]).1 0 2 []
      { Creation.create 0 1 videoRequest with isPublic := true } (by decide) (by decide)).2⟩

/-- C9: when the owner deletes a Creation, then whether the remote deletion goes
through, throws, or is skipped for want of a file URL, `deleteCreation` answers
200, the record stays in the store with status `deleted` and every other field as
it was, every other record and every other store is untouched, and the only
effects are the remote deletion that was asked for and the status write. -/
theorem deleteCreation_soft_delete (remoteThrows : Bool) (w : World) (id : Nat) (c : Creation)
    (hc : Creation.findById w id = some c) :
    (deleteCreation remoteThrows w id c.userId).2
        = Response.message 200 "Creation deleted successfully"
      ∧ Creation.findById (deleteCreation remoteThrows w id c.userId).1 id
        = some { c with status := Status.deleted }
      ∧ (deleteCreation remoteThrows w id c.userId).1.creations.length = w.creations.length
      ∧ (∀ other : Nat, other ≠ id →
          Creation.findById (deleteCreation remoteThrows w id c.userId).1 other
            = Creation.findById w other)
      ∧ (deleteCreation remoteThrows w id c.userId).1.usages = w.usages
      ∧ (deleteCreation remoteThrows w id c.userId).1.analytics = w.analytics
      ∧ (deleteCreation remoteThrows w id c.userId).1.notifications = w.notifications
      ∧ newEffects w (deleteCreation remoteThrows w id c.userId).1
        = (match truthy c.fileUrl with
            | none => []
            | some url => [Effect.cloudinaryDelete (publicId url) (!remoteThrows)])
          ++ [Effect.statusWrite id Status.deleted] := by
  have hfind : w.creations.find? (fun x => x.id == id) = some c := hc
  have hw : ∀ w1 : World, w1.creations = w.creations →
      (w1.writeStatus id Status.deleted).creations
          = updateFirst (fun x => x.id == id) (fun x => { x with status := Status.deleted })
              w.creations
        ∧ (w1.writeStatus id Status.deleted).usages = w1.usages
        ∧ (w1.writeStatus id Status.deleted).analytics = w1.analytics
        ∧ (w1.writeStatus id Status.deleted).notifications = w1.notifications
        ∧ (w1.writeStatus id Status.deleted).log
          = w1.log ++ [Effect.statusWrite id Status.deleted] := by
    intro w1 h1
    have : Creation.findById w1 id = some c := by
      simp only [Creation.findById, h1]; exact hfind
    simp [World.writeStatus, this, h1]
  have hrem : (removeRemoteFile remoteThrows w c).creations = w.creations
      ∧ (removeRemoteFile remoteThrows w c).usages = w.usages
      ∧ (removeRemoteFile remoteThrows w c).analytics = w.analytics
      ∧ (removeRemoteFile remoteThrows w c).notifications = w.notifications
      ∧ (removeRemoteFile remoteThrows w c).log
        = w.log ++ (match truthy c.fileUrl with
            | none => []
            | some url => [Effect.cloudinaryDelete (publicId url) (!remoteThrows)]) := by
    unfold removeRemoteFile
    cases truthy c.fileUrl <;> simp [World.emit]
  obtain ⟨r1, r2, r3, r4, r5⟩ := hrem
  obtain ⟨d1, d2, d3, d4, d5⟩ := hw _ r1
  simp only [deleteCreation, hc, bne_self_eq_false, Bool.false_eq_true, if_false]
  refine ⟨trivial, ?_, ?_, ?_, ?_, ?_, ?_, ?_⟩
  · simp only [Creation.findById, d1]
    rw [find_updateFirst]
    · rw [hfind]; rfl
    · intro x hx
      exact hx
  · rw [d1, length_updateFirst]
  · intro other hother
    simp only [Creation.findById, d1]
    apply find_updateFirst_other
    · intro x; rfl
    · intro x hx
      have : x.id = id := by simpa using hx
      simp [this, Ne.symm hother]
  · rw [d2, r2]
  · rw [d3, r3]
  · rw [d4, r4]
  · apply newEffects_append
    rw [d5, r5, List.append_assoc]

theorem deleteCreation_soft_delete_witness :
    Creation.findById createdWorld 0 = some (Creation.create 0 1 videoRequest)
      ∧ (deleteCreation true createdWorld 0 1).2
        = Response.message 200 "Creation deleted successfully"
      ∧ Creation.findById (deleteCreation true createdWorld 0 1).1 0
        = some { Creation.create 0 1 videoRequest with status := Status.deleted } :=
  have h := deleteCreation_soft_delete true createdWorld 0 (Creation.create 0 1 videoRequest)
    (by decide)
  ⟨by decide, h.1, h.2.1⟩

/-! ## The allow-list of updateCreation -/

theorem Obj.get_set (o : Obj) (k k1 : String) (v : Value) :
    Obj.get (Obj.set o k v) k1 = if k = k1 then some v else Obj.get o k1 := by
  induction o with
  | nil => simp [Obj.set, Obj.get]
  | cons a rest ih =>
    obtain ⟨a, x⟩ := a
    by_cases hak : a = k
    · subst hak
      by_cases h1 : a = k1 <;> simp [Obj.set, Obj.get, h1]
    · by_cases h1 : a = k1
      · subst h1
        have : ¬ k = a := fun h => hak h.symm
        simp [Obj.set, Obj.get, hak, this]
      · simp [Obj.set, Obj.get, hak, h1, ih]

theorem Obj.get_eq_none_of_not_mem (o : Obj) (k : String) (h : k ∉ Obj.keys o) :
    Obj.get o k = none := by
  induction o with
  | nil => rfl
  | cons a rest ih =>
    obtain ⟨a, x⟩ := a
    simp only [Obj.keys, List.map_cons, List.mem_cons, not_or] at h
    have hne : ¬ a = k := fun e => h.1 e.symm
    simp only [Obj.get, hne, if_false]
    exact ih h.2

/-- One round of the loop of lines 202-206. -/
theorem get_filterStep (body acc : Obj) (k key : String) :
    Obj.get
        (if allowedFields.contains k = true then
          match Obj.get body k with
          | some v => Obj.set acc k v
          | none => acc
        else acc) key
      = if k = key ∧ key ∈ allowedFields ∧ (Obj.get body key).isSome = true then Obj.get body key
        else Obj.get acc key := by
  by_cases hk : k = key
  · subst hk
    by_cases ha : k ∈ allowedFields
    · cases hv : Obj.get body k with
      | none => simp [ha, hv]
      | some v => simp [ha, hv, Obj.get_set]
    · simp [ha]
  · by_cases ha : k ∈ allowedFields
    · cases hv : Obj.get body k with
      | none => simp [ha, hv, hk]
      | some v => simp [ha, hv, hk, Obj.get_set]
    · simp [ha, hk]

theorem get_foldl_filter (body : Obj) (ks : List String) (acc : Obj) (key : String) :
    Obj.get
        (ks.foldl
          (fun filteredBody k =>
            if allowedFields.contains k then
              match Obj.get body k with
              | some v => Obj.set filteredBody k v
              | none => filteredBody
            else filteredBody)
          acc) key
      = if key ∈ ks ∧ key ∈ allowedFields ∧ (Obj.get body key).isSome = true then
          Obj.get body key
        else Obj.get acc key := by
  induction ks generalizing acc with
  | nil => simp
  | cons k ks ih =>
    rw [List.foldl_cons, ih, get_filterStep]
    by_cases h1 : key ∈ ks ∧ key ∈ allowedFields ∧ (Obj.get body key).isSome = true
    · have h2 : key ∈ k :: ks ∧ key ∈ allowedFields ∧ (Obj.get body key).isSome = true :=
        ⟨List.mem_cons_of_mem _ h1.1, h1.2⟩
      rw [if_pos h1, if_pos h2]
    · rw [if_neg h1]
      by_cases h3 : k = key ∧ key ∈ allowedFields ∧ (Obj.get body key).isSome = true
      · have h2 : key ∈ k :: ks ∧ key ∈ allowedFields ∧ (Obj.get body key).isSome = true :=
          ⟨by simp [h3.1], h3.2⟩
        rw [if_pos h3, if_pos h2]
      · have h2 : ¬ (key ∈ k :: ks ∧ key ∈ allowedFields ∧ (Obj.get body key).isSome = true) := by
          rintro ⟨hm, hr⟩
          rcases List.mem_cons.mp hm with e | e
          · exact h3 ⟨e.symm, hr⟩
          · exact h1 ⟨e, hr⟩
        rw [if_neg h3, if_neg h2]

/-- The lookup in the patch of `updateCreation`. -/
theorem get_filterBody (body : Obj) (key : String) :
    Obj.get (filterBody body) key
      = if key ∈ allowedFields then Obj.get body key else none := by
  unfold filterBody
  rw [get_foldl_filter]
  by_cases ha : key ∈ allowedFields
  · by_cases hm : key ∈ Obj.keys body
    · cases hv : Obj.get body key <;> simp [ha, hm, hv, Obj.get]
    · simp [ha, hm, Obj.get, Obj.get_eq_none_of_not_mem body key hm]
  · simp [ha, Obj.get]

theorem foldl_filter_skip (body : Obj) (ks : List String) (acc : Obj)
    (h : ∀ k ∈ ks, k ∉ allowedFields) :
    ks.foldl
        (fun filteredBody k =>
          if allowedFields.contains k then
            match Obj.get body k with
            | some v => Obj.set filteredBody k v
            | none => filteredBody
          else filteredBody)
        acc = acc := by
  induction ks generalizing acc with
  | nil => rfl
  | cons k ks ih =>
    have hk : k ∉ allowedFields := h k (by simp)
    rw [List.foldl_cons]
    have hc : allowedFields.contains k = false := by simp [hk]
    simp only [hc, Bool.false_eq_true, if_false]
    exact ih acc (fun k1 h1 => h k1 (List.mem_cons_of_mem _ h1))

theorem foldl_filter_allowed (body : Obj) (ks : List String) (acc : Obj) :
    (ks.filter (fun k => allowedFields.contains k)).foldl
        (fun filteredBody k =>
          if allowedFields.contains k then
            match Obj.get body k with
            | some v => Obj.set filteredBody k v
            | none => filteredBody
          else filteredBody)
        acc
      = ks.foldl
        (fun filteredBody k =>
          if allowedFields.contains k then
            match Obj.get body k with
            | some v => Obj.set filteredBody k v
            | none => filteredBody
          else filteredBody)
        acc := by
  induction ks generalizing acc with
  | nil => rfl
  | cons k ks ih =>
    by_cases hk : allowedFields.contains k = true
    · rw [List.filter_cons_of_pos hk, List.foldl_cons, List.foldl_cons, ih]
    · rw [List.filter_cons_of_neg hk, List.foldl_cons, ih]
      simp only [hk, Bool.false_eq_true, if_false]

theorem get_filter_allowed (body : Obj) (key : String) (h : allowedFields.contains key = true) :
    Obj.get (body.filter (fun kv => allowedFields.contains kv.1)) key = Obj.get body key := by
  induction body with
  | nil => rfl
  | cons a rest ih =>
    obtain ⟨a, x⟩ := a
    by_cases ha : allowedFields.contains a = true
    · rw [List.filter_cons_of_pos (p := fun kv : String × Value => allowedFields.contains kv.1) ha]
      simp only [Obj.get, ih]
    · rw [List.filter_cons_of_neg (p := fun kv : String × Value => allowedFields.contains kv.1) ha]
      have hne : ¬ a = key := fun e => ha (e ▸ h)
      simp only [Obj.get, hne, if_false]
      exact ih

/-- Keys outside the allow-list play no part in the patch. -/
theorem filterBody_filter (body : Obj) :
    filterBody (body.filter (fun kv => allowedFields.contains kv.1)) = filterBody body := by
  have hstep : (fun (filteredBody : Obj) (k : String) =>
        if allowedFields.contains k then
          match Obj.get (body.filter (fun kv => allowedFields.contains kv.1)) k with
          | some v => Obj.set filteredBody k v
          | none => filteredBody
        else filteredBody)
      = (fun (filteredBody : Obj) (k : String) =>
        if allowedFields.contains k then
          match Obj.get body k with
          | some v => Obj.set filteredBody k v
          | none => filteredBody
        else filteredBody) := by
    funext fb k
    by_cases hk : allowedFields.contains k = true
    · simp only [hk, if_true, get_filter_allowed body k hk]
    · simp only [hk, Bool.false_eq_true, if_false]
  have hkeys : Obj.keys (body.filter (fun kv => allowedFields.contains kv.1))
      = (Obj.keys body).filter (fun k => allowedFields.contains k) := by
    unfold Obj.keys
    rw [List.filter_map]
    rfl
  unfold filterBody
  rw [hstep, hkeys, foldl_filter_allowed]

/-- C7: when the owner updates a Creation, the patch is `filterBody body`: looking
a key up in it gives the body's value when the key is in the allow-list and
nothing otherwise; the keys outside the allow-list play no part in the answer;
the answer is never a 4xx error, and when the patch passes validation it is 200
with the patch as the one effect; a body with no allowed key gives the empty
patch and 200 with the record as it was. -/
theorem updateCreation_allow_list (w : World) (id : Nat) (body : Obj) (c : Creation)
    (hc : Creation.findById w id = some c) :
    (∀ key : String,
        Obj.get (filterBody body) key
          = if key ∈ allowedFields then Obj.get body key else none)
      ∧ updateCreation w id c.userId body
        = updateCreation w id c.userId (body.filter (fun kv => allowedFields.contains kv.1))
      ∧ ((updateCreation w id c.userId body = (w, Response.thrown)
            ∧ c.applyPatch (filterBody body) = none)
          ∨ ∃ updated : Creation, c.applyPatch (filterBody body) = some updated
            ∧ (updateCreation w id c.userId body).2 = Response.creation 200 (some updated)
            ∧ Creation.findById (updateCreation w id c.userId body).1 id = some updated
            ∧ newEffects w (updateCreation w id c.userId body).1
              = [Effect.creationUpdate id (filterBody body)])
      ∧ ((∀ key ∈ Obj.keys body, key ∉ allowedFields) →
          filterBody body = []
            ∧ updateCreation w id c.userId body
              = ({ w with log := w.log ++ [Effect.creationUpdate id []] },
                  Response.creation 200 (some c))) := by
  have hfind : w.creations.find? (fun x => x.id == id) = some c := hc
  have hid : (c.id == id) = true := by
    have := List.find?_some hfind
    simpa using this
  have hkeep : ∀ (patch : Obj) (c1 c2 : Creation), c1.applyPatch patch = some c2 →
      c2.id = c1.id := by
    intro patch
    induction patch with
    | nil =>
      intro c1 c2 h
      simp only [Creation.applyPatch, Option.some.injEq] at h
      rw [h]
    | cons kv rest ih =>
      intro c1 c2 h
      obtain ⟨k, v⟩ := kv
      simp only [Creation.applyPatch] at h
      cases hs : c1.setField k v with
      | none => simp [hs] at h
      | some c3 =>
        simp only [hs] at h
        have h3 : c3.id = c1.id := by
          unfold Creation.setField at hs
          split at hs
          · (cases v <;> simp at hs); rw [← hs]
          · split at hs
            · (cases v <;> simp at hs); rw [← hs]
            · split at hs
              · (cases v <;> simp at hs); rw [← hs]
              · split at hs
                · (cases v <;> simp at hs); rw [← hs]
                · simp at hs; rw [hs]
        rw [ih c3 c2 h, h3]
  refine ⟨get_filterBody body, ?_, ?_, ?_⟩
  · simp only [updateCreation, hc, filterBody_filter]
  · cases hp : c.applyPatch (filterBody body) with
    | none =>
      left
      simp [updateCreation, hc, hp]
    | some updated =>
      right
      have hupd : updateCreation w id c.userId body
          = ({ w with
                creations := updateFirst (fun x => x.id == id) (fun _ => updated) w.creations
                log := w.log ++ [Effect.creationUpdate id (filterBody body)] },
              Response.creation 200 (some updated)) := by
        simp [updateCreation, hc, hp]
      have hu : (updated.id == id) = true := by
        rw [hkeep _ _ _ hp]; exact hid
      refine ⟨updated, rfl, ?_, ?_, ?_⟩
      · rw [hupd]
      · rw [hupd]
        simp only [Creation.findById]
        rw [find_updateFirst]
        · rw [hfind]; rfl
        · intro _ _
          exact hu
      · rw [hupd]
        simp [newEffects]
  · intro hk
    have he : filterBody body = [] := foldl_filter_skip body (Obj.keys body) [] hk
    refine ⟨he, ?_⟩
    simp only [updateCreation, hc, he, Creation.applyPatch, bne_self_eq_false,
      Bool.false_eq_true, if_false]
    rw [updateFirst_const_of_find _ c _ hfind]

theorem updateCreation_allow_list_witness :
    Creation.findById createdWorld 0 = some (Creation.create 0 1 videoRequest)
      ∧ filterBody [("status", Value.str "completed"), ("downloadCount", Value.num 9)] = []
      ∧ updateCreation createdWorld 0 1
          [("status", Value.str "completed"), ("downloadCount", Value.num 9)]
        = ({ createdWorld with log := createdWorld.log ++ [Effect.creationUpdate 0 []] },
            Response.creation 200 (some (Creation.create 0 1 videoRequest))) :=
  ⟨by decide,
    (updateCreation_allow_list createdWorld 0
      [("status", Value.str "completed"), ("downloadCount", Value.num 9)]
      (Creation.create 0 1 videoRequest) (by decide)).2.2.2 (by decide)⟩

/-! ## Pagination -/

/-- The page count is the least number of pages of `limit` items that hold `total`. -/
theorem pageCount_least (total limit : Nat) (h : 0 < limit) :
    ∃ pages, pageCount total limit = some pages
      ∧ total ≤ pages * limit
      ∧ (∀ k : Nat, total ≤ k * limit → pages ≤ k)
      ∧ (total = 0 → pages = 0) := by
  have hq : (0 : ℚ) < (limit : ℚ) := by exact_mod_cast h
  refine ⟨⌈(total : ℚ) / (limit : ℚ)⌉₊, ?_, ?_, ?_, ?_⟩
  · simp [pageCount, Nat.pos_iff_ne_zero.mp h, Int.ceil_toNat]
  · have h1 : (total : ℚ) / (limit : ℚ) ≤ (⌈(total : ℚ) / (limit : ℚ)⌉₊ : ℚ) := Nat.le_ceil _
    have h2 : (total : ℚ) ≤ (⌈(total : ℚ) / (limit : ℚ)⌉₊ : ℚ) * (limit : ℚ) :=
      (div_le_iff₀ hq).mp h1
    exact_mod_cast h2
  · intro k hk
    apply Nat.ceil_le.mpr
    rw [div_le_iff₀ hq]
    exact_mod_cast hk
  · intro h0
    subst h0
    simp

theorem length_skipLimit (skip limit : Nat) (h : 0 < limit) (xs : List Creation) :
    skipLimit skip limit xs = (xs.drop skip).take limit
      ∧ (skipLimit skip limit xs).length ≤ limit := by
  have h1 : skipLimit skip limit xs = (xs.drop skip).take limit := by
    simp [skipLimit, Nat.pos_iff_ne_zero.mp h]
  refine ⟨h1, ?_⟩
  rw [h1, List.length_take]
  exact Nat.min_le_left _ _

/-- The answer of the shared tail for a positive page and a positive limit. -/
theorem listAnswer_positive (w : World) (q : ListQuery) (page limit : Nat)
    (hp : q.page = some page) (hl : q.limit = some limit) (hpage : 0 < page)
    (hlimit : 0 < limit) (sorted : List Creation) (total : Nat) :
    listAnswer w q sorted total
      = (w, Response.list 200 ((sorted.drop ((page - 1) * limit)).take limit)
          { page := page, limit := limit, total := total, pages := pageCount total limit }) := by
  have hskip : ¬ (((page : Int) - 1) * (limit : Int) < 0) := by
    have h1 : (0 : Int) ≤ (page : Int) - 1 := by omega
    have h2 : (0 : Int) ≤ (limit : Int) := by omega
    exact not_lt.mpr (mul_nonneg h1 h2)
  have hnat : (((page : Int) - 1) * (limit : Int)).toNat = (page - 1) * limit := by
    have h1 : ((page : Int) - 1) = ((page - 1 : Nat) : Int) := by omega
    rw [h1, ← Int.natCast_mul, Int.toNat_natCast]
  simp only [listAnswer, hp, hl, Option.getD_some, hskip, if_false, hnat,
    (length_skipLimit _ limit hlimit sorted).1]

/-- C10: for a positive page and a positive limit, both list handlers skip
`(page - 1) * limit` items of the sorted matches, answer at most `limit` items,
and report `page`, `limit`, the total count and the page count; for every total
the page count is the least number `pages` with `pages * limit ≥ total`, which
is 0 when the total is 0. -/
theorem list_pagination (sort : List Creation → List Creation) (w : World) (userId : Nat)
    (q : ListQuery) (page limit : Nat)
    (hp : q.page = some page) (hl : q.limit = some limit) (hpage : 0 < page)
    (hlimit : 0 < limit) :
    getCreations sort w userId q
        = (w, Response.list 200
            (((sort (w.creations.filter (ownedMatch userId q))).drop ((page - 1) * limit)).take
              limit)
            { page := page, limit := limit,
              total := (w.creations.filter (ownedMatch userId q)).length,
              pages := pageCount (w.creations.filter (ownedMatch userId q)).length limit })
      ∧ getPublicCreations sort w q
        = (w, Response.list 200
            (((sort (w.creations.filter (publicMatch q))).drop ((page - 1) * limit)).take limit)
            { page := page, limit := limit,
              total := (w.creations.filter (publicCountMatch q)).length,
              pages := pageCount (w.creations.filter (publicCountMatch q)).length limit })
      ∧ (∀ xs : List Creation, ((xs.drop ((page - 1) * limit)).take limit).length ≤ limit)
      ∧ (∀ total : Nat, ∃ pages, pageCount total limit = some pages
          ∧ total ≤ pages * limit
          ∧ (∀ k : Nat, total ≤ k * limit → pages ≤ k)
          ∧ (total = 0 → pages = 0)) := by
  refine ⟨?_, ?_, ?_, ?_⟩
  · exact listAnswer_positive w q page limit hp hl hpage hlimit _ _
  · exact listAnswer_positive w q page limit hp hl hpage hlimit _ _
  · intro xs
    rw [List.length_take]
    exact Nat.min_le_left _ _
  · intro total
    exact pageCount_least total limit hlimit

theorem list_pagination_witness :
    (∃ pages, pageCount 5 2 = some pages ∧ 5 ≤ pages * 2
        ∧ (∀ k : Nat, 5 ≤ k * 2 → pages ≤ k) ∧ ((5 : Nat) = 0 → pages = 0))
      ∧ (getCreations (fun xs => xs) createdWorld 1 secondPage).1 = createdWorld :=
  have h := list_pagination (fun xs => xs) createdWorld 1 secondPage 2 2 rfl rfl
    (by decide) (by decide)
  ⟨h.2.2.2 5, by rw [h.1]⟩

/-! ## The dashboard fallback -/

/-- The fallback path: when the call rejects with a value that is not `null` or
`undefined`, resolves with a body that is `null` or `undefined`, or resolves with
a status other than `success`, `getDashboardData` returns normally with
`dashboardData` the fallback object, `error` the message of the failure and
`loading` false; the fallback object has the four stats 0, both recent lists
empty and `used` 0 for the three kinds. -/
theorem getDashboardData_fallback_of_value (typeError : String → String) (s : DashState) :
    (∀ message : Option String,
        getDashboardData typeError (ApiResult.rejects (Thrown.value message)) s
          = ({ dashboardData := some fallbackData, loading := false, error := message },
              Completion.returned))
      ∧ getDashboardData typeError (ApiResult.resolves none) s
        = ({ dashboardData := some fallbackData, loading := false,
             error := some (typeError "status") }, Completion.returned)
      ∧ (∀ response : ApiResponse, response.status ≠ "success" →
        getDashboardData typeError (ApiResult.resolves (some response)) s
          = ({ dashboardData := some fallbackData, loading := false,
               error := some ((truthy response.message).getD "Failed to fetch dashboard data") },
              Completion.returned))
      ∧ fallbackData.stats
        = { totalCreations := 0, totalPosts := 0, totalViews := 0, totalEngagement := 0 }
      ∧ fallbackData.recentCreations = []
      ∧ fallbackData.recentPosts = []
      ∧ fallbackData.usage.images.used = 0
      ∧ fallbackData.usage.videos.used = 0
      ∧ fallbackData.usage.posts.used = 0 := by
  refine ⟨fun message => rfl, rfl, ?_, rfl, rfl, rfl, rfl, rfl, rfl⟩
  intro response hne
  simp [getDashboardData, dashboardTry, hne]

/-- C11, where the code breaks it: when the call rejects with `undefined` (or
`null`), the `catch` block throws on `error.message` before it stores the
fallback object; `getDashboardData` rejects with that TypeError, `dashboardData`
stays `null` and `error` stays `null`; only `loading` is cleared. -/
theorem getDashboardData_rejects_undefined (typeError : String → String) :
    getDashboardData typeError (ApiResult.rejects Thrown.nullish) initialDashState
      = ({ dashboardData := none, loading := false, error := none },
          Completion.rethrown (typeError "message")) :=
  rfl

/-! ## The usage kind of a request -/

theorem findCurrent_incremented (w : World) (userId : Nat) (u : Usage) (kind : UsageKind)
    (hu : Usage.findCurrent w userId = some u) :
    (updateFirst (fun x => x.userId == userId) (fun x => x.incrementUsage kind) w.usages).find?
        (fun x => x.userId == userId) = some (u.incrementUsage kind) := by
  rw [find_updateFirst]
  · unfold Usage.findCurrent at hu
    rw [hu]; rfl
  · intro x hxp
    cases kind <;> simpa [Usage.incrementUsage] using hxp

theorem counter_incrementUsage (u : Usage) (kind other : UsageKind) :
    (u.incrementUsage kind).counter other
      = if other = kind then { u.counter other with used := (u.counter other).used + 1 }
        else u.counter other := by
  cases kind <;> cases other <;> simp [Usage.incrementUsage, Usage.counter]

/-- C12, as the code has it: the kind the handler computes is `images` for the
type `image` and `videos` for every other type, `video` included, so for the
types `image` and `video` it is the known kind of the type; that kind is the one
whose limit decides the 403, every usage increment the handler performs is on
that kind of that user, the user's record afterwards is the record as it was or
the record incremented on that kind, and incrementing a kind raises its counter
by one and leaves the counters of the other kinds as they were. -/
theorem createCreation_checks_and_charges_same_kind (f : CreateFaults) (w : World)
    (userId : Nat) (body : CreateRequest) (u : Usage)
    (hu : Usage.findCurrent w userId = some u) :
    usageType body.type = (if body.type = "image" then UsageKind.images else UsageKind.videos)
      ∧ (body.type = "image" ∨ body.type = "video" →
          usageKindSpec body.type = some (usageType body.type))
      ∧ ((createCreation f w userId body).2
            = Response.error 403
                ("You have reached your " ++ (usageType body.type).name
                  ++ " generation limit for this period")
          ↔ u.isLimitExceeded (usageType body.type) = true)
      ∧ (∀ (uid : Nat) (kind : UsageKind),
          Effect.incrementUsage uid kind ∈ newEffects w (createCreation f w userId body).1 →
          uid = userId ∧ kind = usageType body.type)
      ∧ (Usage.findCurrent (createCreation f w userId body).1 userId = some u
          ∨ Usage.findCurrent (createCreation f w userId body).1 userId
            = some (u.incrementUsage (usageType body.type)))
      ∧ (∀ other : UsageKind,
          (u.incrementUsage (usageType body.type)).counter other
            = if other = usageType body.type then
                { u.counter other with used := (u.counter other).used + 1 }
              else u.counter other) := by
  have hinc := findCurrent_incremented w userId u (usageType body.type) hu
  refine ⟨rfl, ?_, ?_, ?_, ?_, fun other => counter_incrementUsage u _ other⟩
  · intro ht
    rcases ht with h | h <;> simp [usageKindSpec, usageType, h]
  · cases hx : u.isLimitExceeded (usageType body.type)
    · obtain ⟨a, b, c⟩ := f
      cases a <;> cases b <;> cases c <;> simp [createCreation, hu, hx]
    · simp [createCreation, hu, hx]
  · intro uid kind hmem
    cases hx : u.isLimitExceeded (usageType body.type)
    · obtain ⟨a, b, c⟩ := f
      cases a <;> cases b <;> cases c <;>
        simp [createCreation, hu, hx, newEffects] at hmem <;> exact hmem
    · simp [createCreation, hu, hx, newEffects] at hmem
  · cases hx : u.isLimitExceeded (usageType body.type)
    · obtain ⟨a, b, c⟩ := f
      cases a <;> cases b <;> cases c <;>
        simp only [createCreation, hu, hx, Bool.false_eq_true, ↓reduceIte] <;>
        first
          | exact Or.inl trivial
          | exact Or.inl rfl
          | exact Or.inl hu
          | exact Or.inr hinc
    · left
      simp [createCreation, hu, hx]

theorem createCreation_checks_and_charges_same_kind_witness :
    Usage.findCurrent sampleWorld 1 = some sampleUsage
      ∧ usageKindSpec videoRequest.type = some (usageType videoRequest.type)
      ∧ (∀ (uid : Nat) (kind : UsageKind),
          Effect.incrementUsage uid kind
              ∈ newEffects sampleWorld (createCreation noCreateFaults sampleWorld 1 postRequest).1 →
          uid = 1 ∧ kind = usageType postRequest.type) :=
  ⟨by decide,
    (createCreation_checks_and_charges_same_kind noCreateFaults sampleWorld 1 videoRequest
      sampleUsage (by decide)).2.1 (Or.inr rfl),
    (createCreation_checks_and_charges_same_kind noCreateFaults sampleWorld 1 postRequest
      sampleUsage (by decide)).2.2.2.1⟩

/-- C12 fails as stated: a request of type `post`, which has no known kind of its
own among `image` → images and `video` → videos, is accepted with 201 and charged
against `videos`. -/
theorem post_charged_to_videos :
    usageKindSpec postRequest.type = none
      ∧ (createCreation noCreateFaults sampleWorld 1 postRequest).2
        = Response.creation 201 (some (Creation.create 0 1 postRequest))
      ∧ newEffects sampleWorld (createCreation noCreateFaults sampleWorld 1 postRequest).1
        = [Effect.creationCreate 0, Effect.incrementUsage 1 UsageKind.videos,
           Effect.analyticsCreate 0, Effect.setTimeout 0 3000]
      ∧ Usage.findCurrent (createCreation noCreateFaults sampleWorld 1 postRequest).1 1
        = some { sampleUsage with videos := { used := 1, limit := 2 } } := by
  decide

/-! ## The successful deferred completion -/

theorem findById_completeCreation (w : World) (id : Nat) (url : String) (env : Env)
    (c : Creation) (hc : Creation.findById w id = some c) :
    Creation.findById (w.completeCreation id url env) id
      = some { c with
          status := Status.completed, fileUrl := some url, thumbnailUrl := some url,
          fileSize := env.fileSize, generationTime := env.generationTime,
          model := "VisionCast AI Pro" } := by
  unfold World.completeCreation
  rw [hc]
  simp only [Creation.findById]
  rw [find_updateFirst]
  · simp only [Creation.findById] at hc
    rw [hc]; rfl
  · intro x hx
    exact hx

theorem stores_patchAnalytics (w : World) (entityId : Nat) (env : Env) :
    (w.patchAnalytics entityId env).creations = w.creations
      ∧ (w.patchAnalytics entityId env).notifications = w.notifications := by
  unfold World.patchAnalytics
  cases w.analytics.find? (isCreationEvent entityId) <;> exact ⟨rfl, rfl⟩

theorem notifications_completeCreation (w : World) (id : Nat) (url : String) (env : Env) :
    (w.completeCreation id url env).notifications = w.notifications := by
  unfold World.completeCreation
  cases Creation.findById w id <;> rfl

/-- C13: when no call of the deferred completion throws, the Creation of the job
gets status `completed`, a file URL that is `https://picsum.photos/`, the size
token, `?random=` and the timestamp in decimal, and the same URL as thumbnail;
the size token is the requested size when one was given and `1024/1024` when
none was (an empty string counts as none); the run adds exactly the `generation_complete` Notification, of medium
priority, for the user of the job, with the Creation's id in its data. -/
theorem deferredCompletion_success (env : Env) (w : World) (job : Job) (c : Creation)
    (hc : Creation.findById w job.creationId = some c) :
    Creation.findById (deferredCompletion noDeferredFaults env w job) job.creationId
        = some { c with
            status := Status.completed,
            fileUrl := some (placeholderUrl job.size env.now),
            thumbnailUrl := some (placeholderUrl job.size env.now),
            fileSize := env.fileSize, generationTime := env.generationTime,
            model := "VisionCast AI Pro" }
      ∧ placeholderUrl job.size env.now
        = "https://picsum.photos/" ++ sizeToken job.size ++ "?random=" ++ toString env.now
      ∧ (∀ size : String, job.size = some size → size ≠ "" → sizeToken job.size = size)
      ∧ (job.size = none ∨ job.size = some "" → sizeToken job.size = "1024/1024")
      ∧ (deferredCompletion noDeferredFaults env w job).notifications
        = w.notifications ++ [completeNotification job]
      ∧ (completeNotification job).kind = "generation_complete"
      ∧ (completeNotification job).priority = "medium"
      ∧ (completeNotification job).userId = job.userId
      ∧ (completeNotification job).data.creationId = job.creationId := by
  have hrun : deferredCompletion noDeferredFaults env w job
      = ((w.completeCreation job.creationId (placeholderUrl job.size env.now) env).patchAnalytics
          job.creationId env).createNotification (completeNotification job) := rfl
  refine ⟨?_, rfl, ?_, ?_, ?_, rfl, rfl, rfl, rfl⟩
  · rw [hrun]
    simp only [Creation.findById, World.createNotification]
    rw [(stores_patchAnalytics _ job.creationId env).1]
    exact findById_completeCreation w job.creationId _ env c hc
  · intro size hs hne
    simp [sizeToken, hs, hne]
  · intro hs
    rcases hs with hs | hs <;> simp [sizeToken, hs]
  · rw [hrun]
    simp only [World.createNotification]
    rw [(stores_patchAnalytics _ job.creationId env).2, notifications_completeCreation]

theorem deferredCompletion_success_witness :
    Creation.findById createdWorld sampleJob.creationId
        = some (Creation.create 0 1 videoRequest)
      ∧ (Creation.findById (deferredCompletion noDeferredFaults sampleEnv createdWorld sampleJob)
          sampleJob.creationId).map (fun c => (c.status, c.fileUrl))
        = some (Status.completed, some "https://picsum.photos/1024/1024?random=1700") :=
  have h := deferredCompletion_success sampleEnv createdWorld sampleJob
    (Creation.create 0 1 videoRequest) (by decide)
  ⟨by decide, by rw [h.1]; decide⟩

/-! ## The identifier of the remote file -/

theorem splitChars_ne_nil (sep : Char) (cs : List Char) : splitChars sep cs ≠ [] := by
  cases cs with
  | nil => simp [splitChars]
  | cons c cs =>
    simp only [splitChars]
    split
    · simp
    · split <;> simp

theorem splitChars_of_not_mem (sep : Char) (cs : List Char) (h : sep ∉ cs) :
    splitChars sep cs = [cs] := by
  induction cs with
  | nil => rfl
  | cons c cs ih =>
    simp only [List.mem_cons, not_or] at h
    have hc : ¬ c = sep := fun e => h.1 e.symm
    simp [splitChars, hc, ih h.2]

theorem splitChars_of_mem (sep : Char) (cs : List Char) (h : sep ∈ cs) :
    ∃ p q t, splitChars sep cs = p :: q :: t := by
  induction cs with
  | nil => simp at h
  | cons c cs ih =>
    by_cases hc : c = sep
    · obtain ⟨q, t, hq⟩ := List.exists_cons_of_ne_nil (splitChars_ne_nil sep cs)
      exact ⟨[], q, t, by simp [splitChars, hc, hq]⟩
    · have hmem : sep ∈ cs := by
        rcases List.mem_cons.mp h with e | e
        · exact absurd e.symm hc
        · exact e
      obtain ⟨p, q, t, hp⟩ := ih hmem
      exact ⟨c :: p, q, t, by simp [splitChars, hc, hp]⟩

theorem splitChars_cons_sep (sep : Char) (cs : List Char) :
    splitChars sep (sep :: cs) = [] :: splitChars sep cs := by
  simp [splitChars]

theorem splitChars_cons_ne (sep c : Char) (cs p : List Char) (t : List (List Char))
    (hc : ¬ c = sep) (h : splitChars sep cs = p :: t) :
    splitChars sep (c :: cs) = (c :: p) :: t := by
  simp [splitChars, hc, h]

/-- The last piece of a split is the text after the last separator. -/
theorem getLast?_splitChars_append (sep : Char) (pre seg : List Char) (h : sep ∉ seg) :
    (splitChars sep (pre ++ sep :: seg)).getLast? = some seg := by
  induction pre with
  | nil => simp [splitChars, splitChars_of_not_mem sep seg h]
  | cons c pre ih =>
    rw [List.cons_append]
    by_cases hc : c = sep
    · obtain ⟨q, t, hq⟩ :=
        List.exists_cons_of_ne_nil (splitChars_ne_nil sep (pre ++ sep :: seg))
      rw [hc, splitChars_cons_sep]
      rw [hq] at ih ⊢
      rw [List.getLast?_cons_cons]
      exact ih
    · obtain ⟨p, q, t, hp⟩ := splitChars_of_mem sep (pre ++ sep :: seg) (by simp)
      rw [splitChars_cons_ne sep c _ p (q :: t) hc hp, List.getLast?_cons_cons]
      rw [hp, List.getLast?_cons_cons] at ih
      exact ih

theorem exists_last_separator (sep : Char) (cs : List Char) (h : sep ∈ cs) :
    ∃ pre seg, cs = pre ++ sep :: seg ∧ sep ∉ seg := by
  induction cs with
  | nil => simp at h
  | cons c cs ih =>
    by_cases hmem : sep ∈ cs
    · obtain ⟨pre, seg, he, hs⟩ := ih hmem
      exact ⟨c :: pre, seg, by simp [he], hs⟩
    · rcases List.mem_cons.mp h with e | e
      · exact ⟨[], cs, by simp [e], hmem⟩
      · exact absurd e hmem

/-- The first piece of a split is the text before the first separator. -/
theorem head?_splitChars (sep : Char) (cs : List Char) :
    (splitChars sep cs).head? = some (cs.takeWhile (fun c => !decide (c = sep))) := by
  induction cs with
  | nil => rfl
  | cons c cs ih =>
    by_cases hc : c = sep
    · simp [splitChars, hc, List.takeWhile]
    · obtain ⟨q, t, hq⟩ := List.exists_cons_of_ne_nil (splitChars_ne_nil sep cs)
      rw [hq] at ih
      simp only [List.head?_cons, Option.some.injEq] at ih
      simp [splitChars, hc, hq, List.takeWhile, ih]

theorem takeWhile_cut (sep : Char) (cs : List Char) :
    sep ∉ cs.takeWhile (fun c => !decide (c = sep))
      ∧ (cs = cs.takeWhile (fun c => !decide (c = sep))
        ∨ ∃ rest, cs = cs.takeWhile (fun c => !decide (c = sep)) ++ sep :: rest) := by
  induction cs with
  | nil => simp
  | cons c cs ih =>
    by_cases hc : c = sep
    · subst hc
      simp [List.takeWhile]
    · obtain ⟨h1, h2⟩ := ih
      have hne : ¬ sep = c := fun e => hc e.symm
      refine ⟨by simp [List.takeWhile, hc, hne, h1], ?_⟩
      rcases h2 with h2 | ⟨rest, h2⟩
      · left
        simp only [List.takeWhile, hc, decide_False, Bool.not_false]
        rw [← h2]
      · right
        refine ⟨rest, ?_⟩
        simp only [List.takeWhile, hc, decide_False, Bool.not_false, List.cons_append]
        rw [← h2]

theorem takeWhile_append_sep (sep : Char) (a b : List Char) (h : sep ∉ a) :
    (a ++ sep :: b).takeWhile (fun c => !decide (c = sep)) = a := by
  induction a with
  | nil => simp [List.takeWhile]
  | cons c a ih =>
    simp only [List.mem_cons, not_or] at h
    have hc : ¬ c = sep := fun e => h.1 e.symm
    simp [List.takeWhile, hc, ih h.2]

/-- The last piece of the split at `/`, described by where it sits in the text. -/
theorem lastSegment_spec (cs : List Char) :
    ∃ seg : List Char, (splitChars '/' cs).getLast? = some seg
      ∧ '/' ∉ seg
      ∧ ((∃ pre, cs = pre ++ '/' :: seg) ∨ ('/' ∉ cs ∧ seg = cs)) := by
  by_cases h : '/' ∈ cs
  · obtain ⟨pre, seg, he, hs⟩ := exists_last_separator '/' cs h
    refine ⟨seg, ?_, hs, Or.inl ⟨pre, he⟩⟩
    rw [he]
    exact getLast?_splitChars_append '/' pre seg hs
  · refine ⟨cs, ?_, h, Or.inr ⟨h, rfl⟩⟩
    rw [splitChars_of_not_mem '/' cs h]
    rfl

/-- The identifier is the last piece of the split at `/`, cut before its first dot. -/
theorem publicId_data (url : String) (seg : List Char)
    (h : (splitChars '/' url.data).getLast? = some seg) :
    (publicId url).data = seg.takeWhile (fun c => !decide (c = '.')) := by
  unfold publicId
  rw [List.getLastD_eq_getLast?, h]
  simp only [Option.getD_some, head?_splitChars]

/-- The effects of a delete by the owner when the Creation has a file URL. -/
theorem deleteCreation_effects_with_file (remoteThrows : Bool) (w : World) (id : Nat)
    (c : Creation) (url : String)
    (hc : Creation.findById w id = some c) (ht : truthy c.fileUrl = some url) :
    newEffects w (deleteCreation remoteThrows w id c.userId).1
      = [Effect.cloudinaryDelete (publicId url) (!remoteThrows),
         Effect.statusWrite id Status.deleted] := by
  have hw : removeRemoteFile remoteThrows w c
      = w.emit (Effect.cloudinaryDelete (publicId url) (!remoteThrows)) := by
    simp [removeRemoteFile, ht]
  have hsome : (Creation.findById
      (w.emit (Effect.cloudinaryDelete (publicId url) (!remoteThrows))) id).isSome = true := by
    have : Creation.findById
        (w.emit (Effect.cloudinaryDelete (publicId url) (!remoteThrows))) id
          = Creation.findById w id := rfl
    rw [this, hc]; rfl
  simp only [deleteCreation, hc, bne_self_eq_false, Bool.false_eq_true, if_false, hw]
  have hlog := log_writeStatus _ id Status.deleted hsome
  exact newEffects_append w _ _ (by simpa [World.emit] using hlog)

/-- C14: when the owner deletes a Creation with a non-empty file URL, the
identifier handed to the remote deletion is `publicId fileUrl`: it is the text
after the last `/` of the URL (the whole URL when it has no `/`), cut before the
first `.` of that text (the whole text when it has no `.`); it contains neither
`/` nor `.`; and for a URL `dir/name.ext` whose text after the last `/` is
`name.ext` (no `/` in `name` or in `ext`) and with no `.` in `name`, it is
`name`. -/
theorem publicId_last_segment (remoteThrows : Bool) (w : World) (id : Nat) (c : Creation)
    (url : String)
    (hc : Creation.findById w id = some c) (hurl : c.fileUrl = some url) (hne : url ≠ "") :
    newEffects w (deleteCreation remoteThrows w id c.userId).1
        = [Effect.cloudinaryDelete (publicId url) (!remoteThrows),
           Effect.statusWrite id Status.deleted]
      ∧ (∃ seg : List Char, '/' ∉ seg
          ∧ ((∃ pre, url.data = pre ++ '/' :: seg) ∨ ('/' ∉ url.data ∧ seg = url.data))
          ∧ (seg = (publicId url).data ∨ ∃ rest, seg = (publicId url).data ++ '.' :: rest))
      ∧ '/' ∉ (publicId url).data
      ∧ '.' ∉ (publicId url).data
      ∧ (∀ dir name ext : String, url = dir ++ "/" ++ name ++ "." ++ ext →
          '/' ∉ name.data → '.' ∉ name.data → '/' ∉ ext.data → publicId url = name) := by
  have ht : truthy c.fileUrl = some url := by simp [truthy, hurl, hne]
  obtain ⟨seg, hlast, hseg, hpos⟩ := lastSegment_spec url.data
  have hid := publicId_data url seg hlast
  obtain ⟨hdot, hcut⟩ := takeWhile_cut '.' seg
  refine ⟨deleteCreation_effects_with_file remoteThrows w id c url hc ht, ?_, ?_, ?_, ?_⟩
  · refine ⟨seg, hseg, hpos, ?_⟩
    rw [hid]
    exact hcut
  · rw [hid]
    intro hmem
    exact hseg ((List.takeWhile_sublist _).subset hmem)
  · rw [hid]
    exact hdot
  · intro dir name ext hu h1 h2 h3
    have hdata : url.data = dir.data ++ '/' :: (name.data ++ '.' :: ext.data) := by
      rw [hu]
      simp [String.data_append]
    have hno : '/' ∉ name.data ++ '.' :: ext.data := by
      simp [h1, h3]
    have hl : (splitChars '/' url.data).getLast? = some (name.data ++ '.' :: ext.data) := by
      rw [hdata]
      exact getLast?_splitChars_append '/' dir.data _ hno
    have hd := publicId_data url _ hl
    rw [takeWhile_append_sep '.' name.data ext.data h2] at hd
    exact String.ext hd

theorem publicId_last_segment_witness :
    publicId "https://res.cloudinary.com/demo/image/upload/v1/sunset.jpg" = "sunset"
      ∧ publicId "https://picsum.photos/512/512?random=1700" = "512?random=1700" :=
  have h := publicId_last_segment false
    { createdWorld with
      creations := [{ Creation.create 0 1 videoRequest with
        fileUrl := some "https://res.cloudinary.com/demo/image/upload/v1/sunset.jpg" }] }
    0
    { Creation.create 0 1 videoRequest with
      fileUrl := some "https://res.cloudinary.com/demo/image/upload/v1/sunset.jpg" }
    "https://res.cloudinary.com/demo/image/upload/v1/sunset.jpg"
    (by decide) rfl (by decide)
  ⟨h.2.2.2.2 "https://res.cloudinary.com/demo/image/upload/v1" "sunset" "jpg"
      (by decide) (by decide) (by decide) (by decide),
    by decide⟩

end Vision
